import Mathlib

/-!
# SupplyGuard: the CNN worker timer of `src/js/workers.js`

A shallow embedding of the on-site timer and overtime tracker of the dashboard.

Modelling conventions.

* A timestamp is a reading of `Date.now()`, an integer number of milliseconds since the
  epoch, modelled as an `Int`.  Every handler (`workerDetected`, `workerLost`, the ticker,
  `simOvertime`) runs to completion synchronously; all the clock readings it makes are
  modelled by the single argument `now`.
* A field that holds `null` or a number is an `Option Int`.  JavaScript tests such a field
  by truthiness (`w.sessionStart ? … : …`), which is false for `null` and also for the
  number `0`; `truthy` keeps that.
* `window.S_WORKERS` is a list of records.  `Array.prototype.find` returns a reference to
  the first matching element, modelled by its index together with its contents; a mutation
  through the reference is a `List.set` at that index.
* The DOM, `console`, and the text of log lines are not modelled.  The overtime log line and
  notification are recorded by the id of the worker they name (`Shared.overtimeLog`).
-/

namespace SupplyGuard

/-- One element of `window.S_WORKERS` (workers.js, lines 22-77). -/
structure Worker where
  name : String
  id : String
  emoji : String
  color : String
  overtimeLimit : Int
  accumulatedSeconds : Int
  sessionStart : Option Int
  lastDetectedAt : Option Int
  isCurrentlyVisible : Bool
  overtimeAlertFired : Bool
  everSeen : Bool
  deriving DecidableEq, Repr

/-- The part of the shared object `S` of app.js that the tracker writes: `S.violations`
(checkOvertime, line 160) and `S.notifCount` (incremented by every `notify`, app.js line 94),
together with `overtimeLog`, the ids named by the `OVERTIME` log line and notification of
checkOvertime (lines 149-150), newest first. -/
structure Shared where
  violations : Nat
  notifCount : Nat
  overtimeLog : List String
  deriving DecidableEq, Repr

/-- The mutable state of workers.js: the roster `window.S_WORKERS`, the module variable
`totalDetectedToday` (line 89) and the shared object `S`. -/
structure State where
  workers : List Worker
  totalDetectedToday : Nat
  S : Shared
  deriving DecidableEq, Repr

/-- JavaScript truthiness of a field holding `null` or a number. -/
def truthy : Option Int → Bool
  | none => false
  | some t => decide (t ≠ 0)

/-- JavaScript numeric value of a field holding `null` or a number (`null` converts to 0). -/
def num : Option Int → Int
  | none => 0
  | some t => t

/-- The expression `Math.floor(d / 1000)` on an integer number of milliseconds. -/
def msToSec (d : Int) : Int := d / 1000

/-- The function `getSecondsOnSite(w)` (lines 96-102), at clock reading `now`. -/
def getSecondsOnSite (now : Int) (w : Worker) : Int :=
  if !w.everSeen then 0
  else
    let currentSession : Int :=
      if w.isCurrentlyVisible && truthy w.sessionStart then msToSec (now - num w.sessionStart)
      else 0
    w.accumulatedSeconds + currentSession

/-- The function `checkOvertime(w)` (lines 145-164): the record `w` after the call and the
shared object after the call. -/
def checkOvertime (now : Int) (w : Worker) (S : Shared) : Worker × Shared :=
  let sec := getSecondsOnSite now w
  if !w.overtimeAlertFired && decide (sec ≥ w.overtimeLimit) then
    ({ w with overtimeAlertFired := true },
     { S with violations := S.violations + 1
              notifCount := S.notifCount + 1
              overtimeLog := w.id :: S.overtimeLog })
  else (w, S)

/-- The call `xs.find(p)`: the first element satisfying `p`, with its index. -/
def findFirst (p : Worker → Bool) : List Worker → Option (Nat × Worker)
  | [] => none
  | w :: ws =>
    if p w then some (0, w)
    else (findFirst p ws).map (fun r => (r.1 + 1, r.2))

/-- The lookup `window.S_WORKERS.find(x => x.id === id)` (lines 109 and 168). -/
def findWorker (id : String) (ws : List Worker) : Option (Nat × Worker) :=
  findFirst (fun x => x.id == id) ws

/-- Lines 114-130 of `workerDetected`: what a detection at `now` does to the record found. -/
def detectUpdate (now : Int) (w : Worker) : Worker :=
  let w1 : Worker :=
    if !w.everSeen then
      { w with everSeen := true, sessionStart := some now, lastDetectedAt := some now
               isCurrentlyVisible := true }
    else if !w.isCurrentlyVisible then
      { w with sessionStart := some now, isCurrentlyVisible := true }
    else w
  { w1 with lastDetectedAt := some now }

/-- The function `workerDetected(id, confidence)` (lines 108-142).  The confidence is only
displayed and is left out. -/
def workerDetected (now : Int) (id : String) (s : State) : State :=
  match findWorker id s.workers with
  | none => s
  | some (i, w) =>
    let r := checkOvertime now (detectUpdate now w) s.S
    { workers := s.workers.set i r.1
      totalDetectedToday := if !w.everSeen then s.totalDetectedToday + 1 else s.totalDetectedToday
      S := r.2 }

/-- Lines 171-177 of `workerLost`: what a loss at `now` does to a visible record. -/
def lostUpdate (now : Int) (w : Worker) : Worker :=
  let w1 : Worker :=
    if truthy w.sessionStart then
      { w with accumulatedSeconds := w.accumulatedSeconds + msToSec (now - num w.sessionStart)
               sessionStart := none }
    else w
  { w1 with isCurrentlyVisible := false }

/-- The function `workerLost(id)` (lines 167-179). -/
def workerLost (now : Int) (id : String) (s : State) : State :=
  match findWorker id s.workers with
  | none => s
  | some (i, w) =>
    if !w.isCurrentlyVisible then s
    else { s with workers := s.workers.set i (lostUpdate now w) }

/-- The staleness test of the ticker (line 243). -/
def isStale (now : Int) (w : Worker) : Bool :=
  w.isCurrentlyVisible && truthy w.lastDetectedAt && decide (now - num w.lastDetectedAt > 10000)

/-- The body of the `forEach` of the master ticker (lines 243-246) for the element at
index `i`. -/
def tickAt (now : Int) (s : State) (i : Nat) : State :=
  match s.workers[i]? with
  | none => s
  | some w =>
    let s1 := if isStale now w then workerLost now w.id s else s
    match s1.workers[i]? with
    | none => s1
    | some w1 =>
      if w1.everSeen then
        let r := checkOvertime now w1 s1.S
        { s1 with workers := s1.workers.set i r.1, S := r.2 }
      else s1

/-- One run of the master ticker (lines 240-251): the `forEach` visits the indices of the
roster in order.  The three render calls that follow only write to the DOM. -/
def ticker (now : Int) (s : State) : State :=
  (List.range s.workers.length).foldl (tickAt now) s

/-- Lines 269-273 of `simOvertime`: the assignments to the record picked. -/
def simUpdate (now : Int) (w : Worker) : Worker :=
  { w with everSeen := true, accumulatedSeconds := 9 * 3600 + 1800, sessionStart := none
           isCurrentlyVisible := false, lastDetectedAt := some now }

/-- The function `simOvertime()` (lines 267-276).  On an empty roster `w` is `undefined`
and the first assignment raises a TypeError: `none`. -/
def simOvertime (now : Int) (s : State) : Option State :=
  let pick : Option (Nat × Worker) :=
    match findFirst (fun x => decide (getSecondsOnSite now x < x.overtimeLimit)) s.workers with
    | some r => some r
    | none => (s.workers[0]?).map (fun w => (0, w))
  match pick with
  | none => none
  | some (i, w) =>
    let r := checkOvertime now (simUpdate now w) s.S
    some { s with workers := s.workers.set i r.1, S := r.2 }

/-- The assignments of the `forEach` of `resetWorkers` (lines 281-286). -/
def resetWorker (w : Worker) : Worker :=
  { w with accumulatedSeconds := 0, sessionStart := none, lastDetectedAt := none
           isCurrentlyVisible := false, overtimeAlertFired := false, everSeen := false }

/-- The function `resetWorkers()` (lines 279-295). -/
def resetWorkers (s : State) : State :=
  { s with workers := s.workers.map resetWorker, totalDetectedToday := 0 }

/-- A roster entry as written in the source: the timer fields at their initial values. -/
def mkWorker (name id emoji color : String) (limit : Int) : Worker :=
  { name := name, id := id, emoji := emoji, color := color, overtimeLimit := limit
    accumulatedSeconds := 0, sessionStart := none, lastDetectedAt := none
    isCurrentlyVisible := false, overtimeAlertFired := false, everSeen := false }

/-- The roster `window.S_WORKERS` as the script defines it (lines 22-77). -/
def S_WORKERS : List Worker :=
  [ mkWorker "Aarush" "W-001" "👷" "#4f8ef7" (9 * 3600),
    mkWorker "Aditya" "W-002" "🧑" "#26d0b2" (9 * 3600),
    mkWorker "Divine" "W-003" "🧑" "#ff9548" (9 * 3600),
    mkWorker "Mukti" "W-004" "👩‍🔧" "#2ed573" (9 * 3600) ]

/-- The state when the scripts have loaded: the roster above, `totalDetectedToday = 0`,
`S.violations = 0`, `S.notifCount = 0`. -/
def initialState : State :=
  { workers := S_WORKERS, totalDetectedToday := 0
    S := { violations := 0, notifCount := 0, overtimeLog := [] } }

/-- What one pass of the ticker body does to one record and to the shared object: the
stale test and `lostUpdate` (lines 243-245), then `checkOvertime` when `everSeen` (line 246). -/
def tickRecord (now : Int) (w : Worker) (S : Shared) : Worker × Shared :=
  let w1 := if isStale now w then lostUpdate now w else w
  if w1.everSeen then checkOvertime now w1 S else (w1, S)

/-- The shared object with nothing recorded. -/
def emptyShared : Shared := ⟨0, 0, []⟩

/-- The record a tick leaves in place of `w`. -/
def tickWorker (now : Int) (w : Worker) : Worker := (tickRecord now w emptyShared).1

/-- The roster has no two entries with the same id. -/
def UniqueIds (ws : List Worker) : Prop := (ws.map (fun w => w.id)).Nodup

/-- An event of the page: a `face_detection` or `face_lost` message for a worker id, one run
of the master ticker, a press of the overtime demo button, a call of `resetWorkers`. -/
inductive Event where
  | detected (now : Int) (id : String)
  | lost (now : Int) (id : String)
  | tick (now : Int)
  | simulate (now : Int)
  | reset
  deriving DecidableEq, Repr

/-- The clock reading an event handler makes, if it makes one. -/
def Event.stamp : Event → Option Int
  | .detected now _ => some now
  | .lost now _ => some now
  | .tick now => some now
  | .simulate now => some now
  | .reset => none

/-- The handler of an event.  A `simOvertime` that raises leaves the state as it was: the
TypeError comes before the first assignment. -/
def step (s : State) : Event → State
  | .detected now id => workerDetected now id s
  | .lost now id => workerLost now id s
  | .tick now => ticker now s
  | .simulate now => (simOvertime now s).getD s
  | .reset => resetWorkers s

/-- The handlers of a list of events, run in order. -/
def run (evs : List Event) (s : State) : State := evs.foldl step s

/-- A clock reading used in the worked scenarios: 2023-11-14T22:13:20Z, in milliseconds. -/
def T0 : Int := 1700000000000

/-- The roster after `W-001` was first detected at `T0`. -/
def seenState : State := workerDetected T0 "W-001" initialState

/-- The first roster entry as its first detection at `T0` leaves it. -/
def seenAarush : Worker := detectUpdate T0 (mkWorker "Aarush" "W-001" "👷" "#4f8ef7" (9 * 3600))

/-- Staleness in the words of the specification: the worker is visible and its last
detection is more than 10 seconds (10000 ms) older than `now`. -/
def staleBySpec (now : Int) (w : Worker) : Bool :=
  w.isCurrentlyVisible &&
    match w.lastDetectedAt with
    | some t => decide (now - t > 10000)
    | none => false

/-- The events of the tracker proper: detections, losses and ticks. -/
def Event.isTracking : Event → Bool
  | .detected _ _ => true
  | .lost _ _ => true
  | .tick _ => true
  | .simulate _ => false
  | .reset => false

/-- Between the shared objects `S` and `S1` no overtime alert was raised for `id`, and every
alert that was raised added one violation, one notification and one log entry. -/
def QuietFor (id : String) (S S1 : Shared) : Prop :=
  S1.overtimeLog.count id = S.overtimeLog.count id ∧
  S1.violations + S.overtimeLog.length = S.violations + S1.overtimeLog.length ∧
  S1.notifCount + S.overtimeLog.length = S.notifCount + S1.overtimeLog.length

/-- Every roster entry carrying `id` has its overtime alert latched. -/
def Latched (id : String) (ws : List Worker) : Prop :=
  ∀ v ∈ ws, v.id = id → v.overtimeAlertFired = true

/-- The roster of the overtime scenario: the roster of the script with the limit of `W-001`
set to 5 seconds. -/
def demoRoster : List Worker :=
  [ mkWorker "Aarush" "W-001" "👷" "#4f8ef7" 5,
    mkWorker "Aditya" "W-002" "🧑" "#26d0b2" (9 * 3600),
    mkWorker "Divine" "W-003" "🧑" "#ff9548" (9 * 3600),
    mkWorker "Mukti" "W-004" "👩‍🔧" "#2ed573" (9 * 3600) ]

/-- The overtime scenario after its first two events: `W-001` detected at `T0`, tick 6 s
later. -/
def firedState : State :=
  run [Event.detected T0 "W-001", Event.tick (T0 + 6000)] ⟨demoRoster, 0, emptyShared⟩

/-- The record of `W-001` in `firedState`. -/
def firedAarush : Worker :=
  tickWorker (T0 + 6000) (detectUpdate T0 (mkWorker "Aarush" "W-001" "👷" "#4f8ef7" 5))

/-- The session start of a record is set exactly when the record is visible, and a set
session start is a clock reading (not 0). -/
def SessionOk (w : Worker) : Prop :=
  (w.sessionStart ≠ none ↔ w.isCurrentlyVisible = true) ∧ w.sessionStart ≠ some 0

/-- What the detector reports about one worker: seen in frame at `t`, or gone from the frame
at `t`. -/
inductive Signal where
  | seen (t : Int)
  | gone (t : Int)
  deriving DecidableEq, Repr

/-- The clock reading of a report. -/
def Signal.time : Signal → Int
  | .seen t => t
  | .gone t => t

/-- The handler call a report leads to, for the worker `id`. -/
def Signal.toEvent (id : String) : Signal → Event
  | .seen t => Event.detected t id
  | .gone t => Event.lost t id

/-- The intervals during which a worker was visible, in the words of the specification: the
intervals that have ended, as pairs of start and end, and the start of the interval still
open, if there is one. -/
structure Intervals where
  closed : List (Int × Int)
  openSince : Option Int
  deriving DecidableEq, Repr

/-- A detection while not visible opens an interval; a loss while visible closes the open
interval; a detection while visible and a loss while not visible change nothing. -/
def Intervals.observe (v : Intervals) : Signal → Intervals
  | .seen t =>
    match v.openSince with
    | none => { v with openSince := some t }
    | some _ => v
  | .gone t =>
    match v.openSince with
    | none => v
    | some a => { closed := (a, t) :: v.closed, openSince := none }

/-- The visible intervals after a sequence of reports about a worker not yet seen. -/
def intervalsOf (sigs : List Signal) : Intervals :=
  sigs.foldl Intervals.observe { closed := [], openSince := none }

/-- The length of the interval from `a` to `b` (milliseconds) in whole seconds. -/
def wholeSeconds (a b : Int) : Int := ⌊((b - a : Int) : ℚ) / 1000⌋

/-- The total of a set of intervals at `now`: the lengths of the closed intervals plus the
length of the open one up to `now`. -/
def Intervals.total (v : Intervals) (now : Int) : Int :=
  (v.closed.map (fun p => wholeSeconds p.1 p.2)).sum +
    match v.openSince with
    | none => 0
    | some a => wholeSeconds a now

/-- The time on site the specification asks for: the sum of the lengths of the visible
intervals, plus the open interval if the worker is still visible. -/
def visibleSeconds (sigs : List Signal) (now : Int) : Int := (intervalsOf sigs).total now

/-- The record `w` has kept the books of the intervals `v`. -/
def Tracks (w : Worker) (v : Intervals) : Prop :=
  w.sessionStart = v.openSince ∧
  w.isCurrentlyVisible = v.openSince.isSome ∧
  v.openSince ≠ some 0 ∧
  w.accumulatedSeconds = (v.closed.map (fun p => wholeSeconds p.1 p.2)).sum ∧
  (w.everSeen = false → v.openSince = none ∧ w.accumulatedSeconds = 0)

/-- The report is a detection. -/
def Signal.isSeen : Signal → Bool
  | .seen _ => true
  | .gone _ => false

/-- The property `totalSeconds` that app.js reads from a roster record (lines 131 and 164).
No record of `window.S_WORKERS` has such a property and no statement of the scripts assigns
one, so the read yields `undefined`: `none`. -/
def Worker.totalSeconds (_w : Worker) : Option Int := none

/-- JavaScript `a >= b` for `a` a number or `undefined` and `b` a number: `undefined`
converts to NaN and the comparison is false. -/
def geNumber : Option Int → Int → Bool
  | none, _ => false
  | some a, b => decide (a ≥ b)

/-- The count `ot` of `updateOvStats` (app.js, line 131), which drives the overview card. -/
def updateOvStats_ot (s : State) : Nat :=
  (s.workers.filter (fun w => geNumber w.totalSeconds w.overtimeLimit)).length

/-- The count `ot` of `updateNavBadges` (app.js, line 164), which drives the nav badge and
the system status. -/
def updateNavBadges_ot (s : State) : Nat :=
  (s.workers.filter (fun w => geNumber w.totalSeconds w.overtimeLimit)).length

/-- The count `otCount` of `renderWorkers` (workers.js, lines 186-193), at clock reading
`now`. -/
def renderWorkers_otCount (now : Int) (s : State) : Nat :=
  (s.workers.filter (fun w => decide (getSecondsOnSite now w ≥ w.overtimeLimit))).length

/-- The roster of the script after one press of the overtime demo button at `T0`. -/
def simState : State := run [Event.simulate T0] initialState

/-- The event is a press of the overtime demo button. -/
def Event.isDemo : Event → Bool
  | .simulate _ => true
  | _ => false

/-! ## Auxiliary lemmas -/

theorem msToSec_eq_floor (d : Int) : msToSec d = ⌊(d : ℚ) / 1000⌋ := by
  unfold msToSec
  have := Rat.floor_intCast_div_natCast d 1000
  simpa using this.symm

theorem getElem?_mid (pre : List Worker) (w : Worker) (suf : List Worker) :
    (pre ++ w :: suf)[pre.length]? = some w := by
  induction pre with
  | nil => simp
  | cons a pre ih => simpa using ih

theorem set_mid (pre : List Worker) (w x : Worker) (suf : List Worker) :
    (pre ++ w :: suf).set pre.length x = pre ++ x :: suf := by
  simp

theorem findFirst_mid (p : Worker → Bool) (pre : List Worker) (w : Worker) (suf : List Worker)
    (hpre : ∀ v ∈ pre, p v = false) (hw : p w = true) :
    findFirst p (pre ++ w :: suf) = some (pre.length, w) := by
  induction pre with
  | nil => simp [findFirst, hw]
  | cons a pre ih =>
    have ha : p a = false := hpre a (by simp)
    have := ih (fun v hv => hpre v (by simp [hv]))
    simp [findFirst, ha, this]

theorem findFirst_some (p : Worker → Bool) (ws : List Worker) (i : Nat) (w : Worker)
    (h : findFirst p ws = some (i, w)) :
    ∃ pre suf, ws = pre ++ w :: suf ∧ pre.length = i ∧ (∀ v ∈ pre, p v = false) ∧ p w = true := by
  induction ws generalizing i with
  | nil => simp [findFirst] at h
  | cons a ws ih =>
    unfold findFirst at h
    by_cases ha : p a = true
    · simp [ha] at h
      obtain ⟨rfl, rfl⟩ := h
      exact ⟨[], ws, rfl, rfl, by simp, ha⟩
    · simp [ha] at h
      obtain ⟨j, hj, rfl⟩ := h
      obtain ⟨pre, suf, rfl, rfl, hp, hw⟩ := ih j hj
      refine ⟨a :: pre, suf, rfl, rfl, ?_, hw⟩
      intro v hv
      rcases List.mem_cons.1 hv with rfl | hv
      · simpa using ha
      · exact hp v hv

theorem findFirst_none (p : Worker → Bool) (ws : List Worker) :
    findFirst p ws = none ↔ ∀ v ∈ ws, p v = false := by
  induction ws with
  | nil => simp [findFirst]
  | cons a ws ih =>
    by_cases ha : p a = true
    · simp [findFirst, ha]
    · simp [findFirst, ha, ih]


/-! ### What the record updates keep -/

@[simp] theorem checkOvertime_id (now : Int) (w : Worker) (S : Shared) :
    (checkOvertime now w S).1.id = w.id := by
  unfold checkOvertime; dsimp only; split <;> rfl

@[simp] theorem detectUpdate_id (now : Int) (w : Worker) : (detectUpdate now w).id = w.id := by
  unfold detectUpdate; dsimp only; split
  · rfl
  · split <;> rfl

@[simp] theorem lostUpdate_id (now : Int) (w : Worker) : (lostUpdate now w).id = w.id := by
  unfold lostUpdate; dsimp only; split <;> rfl

/-- The record component of `checkOvertime` does not depend on the shared object. -/
theorem checkOvertime_fst (now : Int) (w : Worker) (S S' : Shared) :
    (checkOvertime now w S).1 = (checkOvertime now w S').1 := by
  unfold checkOvertime; dsimp only; split <;> rfl

@[simp] theorem tickRecord_id (now : Int) (w : Worker) (S : Shared) :
    (tickRecord now w S).1.id = w.id := by
  unfold tickRecord; dsimp only
  split <;> split <;> simp

theorem tickRecord_fst (now : Int) (w : Worker) (S S' : Shared) :
    (tickRecord now w S).1 = (tickRecord now w S').1 := by
  unfold tickRecord; dsimp only
  split <;> split <;> first | exact checkOvertime_fst _ _ _ _ | rfl

theorem findWorker_mid (pre : List Worker) (w : Worker) (suf : List Worker)
    (h : UniqueIds (pre ++ w :: suf)) :
    findWorker w.id (pre ++ w :: suf) = some (pre.length, w) := by
  unfold findWorker
  apply findFirst_mid
  · intro v hv
    unfold UniqueIds at h
    rw [List.map_append, List.nodup_append] at h
    have hd := h.2.2
    have : v.id ≠ w.id := by
      intro he
      exact hd (List.mem_map_of_mem _ hv) (by simp [he])
    simpa using this
  · simp

theorem staleLost_mid (now : Int) (pre : List Worker) (w : Worker) (suf : List Worker)
    (total : Nat) (S : Shared) (h : UniqueIds (pre ++ w :: suf)) :
    (if isStale now w then workerLost now w.id ⟨pre ++ w :: suf, total, S⟩
      else ⟨pre ++ w :: suf, total, S⟩)
      = ⟨pre ++ (if isStale now w then lostUpdate now w else w) :: suf, total, S⟩ := by
  by_cases hs : isStale now w = true
  · have hv : w.isCurrentlyVisible = true := by
      unfold isStale at hs; simp at hs; exact hs.1.1
    simp [hs, workerLost, findWorker_mid pre w suf h, hv, set_mid]
  · simp [hs]

theorem tickAt_mid (now : Int) (pre : List Worker) (w : Worker) (suf : List Worker)
    (total : Nat) (S : Shared) (h : UniqueIds (pre ++ w :: suf)) :
    tickAt now ⟨pre ++ w :: suf, total, S⟩ pre.length
      = ⟨pre ++ (tickRecord now w S).1 :: suf, total, (tickRecord now w S).2⟩ := by
  unfold tickAt tickRecord
  simp only [getElem?_mid, staleLost_mid now pre w suf total S h]
  split <;> split <;> simp [set_mid]


@[simp] theorem tickWorker_id (now : Int) (w : Worker) : (tickWorker now w).id = w.id := by
  simp [tickWorker]

theorem uniqueIds_replace (pre : List Worker) (w x : Worker) (suf : List Worker)
    (hx : x.id = w.id) (h : UniqueIds (pre ++ w :: suf)) : UniqueIds (pre ++ x :: suf) := by
  unfold UniqueIds at *
  simpa [hx] using h

theorem tickLoop (now : Int) (suf : List Worker) :
    ∀ (pre : List Worker) (total : Nat) (S : Shared), UniqueIds (pre ++ suf) →
      (List.range' pre.length suf.length).foldl (tickAt now) ⟨pre ++ suf, total, S⟩
        = ⟨pre ++ suf.map (tickWorker now), total,
            suf.foldl (fun S w => (tickRecord now w S).2) S⟩ := by
  induction suf with
  | nil => intro pre total S _; simp [List.range']
  | cons w suf ih =>
    intro pre total S h
    have hstep := tickAt_mid now pre w suf total S h
    have h2 : UniqueIds ((pre ++ [(tickRecord now w S).1]) ++ suf) := by
      have := uniqueIds_replace pre w (tickRecord now w S).1 suf (by simp) h
      simpa using this
    have := ih (pre ++ [(tickRecord now w S).1]) total (tickRecord now w S).2 h2
    simp only [List.length_append, List.length_singleton, List.append_assoc,
      List.singleton_append] at this
    rw [tickRecord_fst now w S emptyShared] at hstep this
    simp only [List.length_cons, List.range'_succ, List.foldl_cons, hstep, this, List.map_cons,
      tickWorker]

/-- With unique ids, one run of the ticker replaces every record by `tickWorker` of it and
threads the shared object through the roster in order. -/
theorem ticker_eq (now : Int) (s : State) (h : UniqueIds s.workers) :
    ticker now s = ⟨s.workers.map (tickWorker now), s.totalDetectedToday,
      s.workers.foldl (fun S w => (tickRecord now w S).2) s.S⟩ := by
  have := tickLoop now s.workers [] s.totalDetectedToday s.S (by simpa using h)
  simpa [ticker, List.range_eq_range'] using this

/-! ### The lookup and the two handlers, on a roster split at the record found -/

theorem findWorker_some {id : String} {ws : List Worker} {i : Nat} {w : Worker}
    (h : findWorker id ws = some (i, w)) :
    ∃ pre suf, ws = pre ++ w :: suf ∧ pre.length = i ∧ (∀ v ∈ pre, v.id ≠ id) ∧ w.id = id := by
  obtain ⟨pre, suf, h1, h2, h3, h4⟩ := findFirst_some _ ws i w h
  refine ⟨pre, suf, h1, h2, ?_, by simpa using h4⟩
  intro v hv
  simpa using h3 v hv

theorem findWorker_split (pre : List Worker) (w : Worker) (suf : List Worker)
    (hpre : ∀ v ∈ pre, v.id ≠ w.id) :
    findWorker w.id (pre ++ w :: suf) = some (pre.length, w) := by
  unfold findWorker
  apply findFirst_mid
  · intro v hv; simpa using hpre v hv
  · simp

theorem findWorker_none {id : String} {ws : List Worker} :
    findWorker id ws = none ↔ ∀ v ∈ ws, v.id ≠ id := by
  unfold findWorker
  rw [findFirst_none]
  constructor
  · intro h v hv; simpa using h v hv
  · intro h v hv; simpa using h v hv

theorem workerLost_split (now : Int) (pre : List Worker) (w : Worker) (suf : List Worker)
    (total : Nat) (S : Shared) (hpre : ∀ v ∈ pre, v.id ≠ w.id) :
    workerLost now w.id ⟨pre ++ w :: suf, total, S⟩
      = ⟨pre ++ (if w.isCurrentlyVisible then lostUpdate now w else w) :: suf, total, S⟩ := by
  unfold workerLost
  simp only [findWorker_split pre w suf hpre]
  cases hv : w.isCurrentlyVisible <;> simp [set_mid]

theorem workerDetected_split (now : Int) (pre : List Worker) (w : Worker) (suf : List Worker)
    (total : Nat) (S : Shared) (hpre : ∀ v ∈ pre, v.id ≠ w.id) :
    workerDetected now w.id ⟨pre ++ w :: suf, total, S⟩
      = ⟨pre ++ (checkOvertime now (detectUpdate now w) S).1 :: suf,
          if w.everSeen then total else total + 1,
          (checkOvertime now (detectUpdate now w) S).2⟩ := by
  unfold workerDetected
  simp only [findWorker_split pre w suf hpre]
  cases hv : w.everSeen <;> simp [set_mid]

theorem workerLost_found (now : Int) {id : String} {s : State} {i : Nat} {w : Worker}
    (hf : findWorker id s.workers = some (i, w)) :
    ∃ pre suf, s.workers = pre ++ w :: suf ∧ pre.length = i ∧ (∀ v ∈ pre, v.id ≠ id) ∧
      w.id = id ∧
      workerLost now id s
        = ⟨pre ++ (if w.isCurrentlyVisible then lostUpdate now w else w) :: suf,
            s.totalDetectedToday, s.S⟩ := by
  obtain ⟨pre, suf, hws, hlen, hpre, hid⟩ := findWorker_some hf
  refine ⟨pre, suf, hws, hlen, hpre, hid, ?_⟩
  subst hid
  cases s with
  | mk ws total S =>
    simp only at hws
    subst hws
    exact workerLost_split now pre w suf total S hpre

theorem workerDetected_found (now : Int) {id : String} {s : State} {i : Nat} {w : Worker}
    (hf : findWorker id s.workers = some (i, w)) :
    ∃ pre suf, s.workers = pre ++ w :: suf ∧ pre.length = i ∧ (∀ v ∈ pre, v.id ≠ id) ∧
      w.id = id ∧
      workerDetected now id s
        = ⟨pre ++ (checkOvertime now (detectUpdate now w) s.S).1 :: suf,
            if w.everSeen then s.totalDetectedToday else s.totalDetectedToday + 1,
            (checkOvertime now (detectUpdate now w) s.S).2⟩ := by
  obtain ⟨pre, suf, hws, hlen, hpre, hid⟩ := findWorker_some hf
  refine ⟨pre, suf, hws, hlen, hpre, hid, ?_⟩
  subst hid
  cases s with
  | mk ws total S =>
    simp only at hws
    subst hws
    exact workerDetected_split now pre w suf total S hpre

/-! ### Fields through the record updates -/

theorem checkOvertime_fields (now : Int) (w : Worker) (S : Shared) :
    (checkOvertime now w S).1.accumulatedSeconds = w.accumulatedSeconds ∧
    (checkOvertime now w S).1.sessionStart = w.sessionStart ∧
    (checkOvertime now w S).1.lastDetectedAt = w.lastDetectedAt ∧
    (checkOvertime now w S).1.isCurrentlyVisible = w.isCurrentlyVisible ∧
    (checkOvertime now w S).1.everSeen = w.everSeen ∧
    (checkOvertime now w S).1.overtimeLimit = w.overtimeLimit ∧
    (w.overtimeAlertFired = true → (checkOvertime now w S).1.overtimeAlertFired = true) := by
  unfold checkOvertime; dsimp only
  split <;> simp

@[simp] theorem checkOvertime_accumulatedSeconds (now : Int) (w : Worker) (S : Shared) :
    (checkOvertime now w S).1.accumulatedSeconds = w.accumulatedSeconds :=
  (checkOvertime_fields now w S).1

@[simp] theorem checkOvertime_sessionStart (now : Int) (w : Worker) (S : Shared) :
    (checkOvertime now w S).1.sessionStart = w.sessionStart :=
  (checkOvertime_fields now w S).2.1

@[simp] theorem checkOvertime_lastDetectedAt (now : Int) (w : Worker) (S : Shared) :
    (checkOvertime now w S).1.lastDetectedAt = w.lastDetectedAt :=
  (checkOvertime_fields now w S).2.2.1

@[simp] theorem checkOvertime_isCurrentlyVisible (now : Int) (w : Worker) (S : Shared) :
    (checkOvertime now w S).1.isCurrentlyVisible = w.isCurrentlyVisible :=
  (checkOvertime_fields now w S).2.2.2.1

@[simp] theorem checkOvertime_everSeen (now : Int) (w : Worker) (S : Shared) :
    (checkOvertime now w S).1.everSeen = w.everSeen :=
  (checkOvertime_fields now w S).2.2.2.2.1

@[simp] theorem checkOvertime_overtimeLimit (now : Int) (w : Worker) (S : Shared) :
    (checkOvertime now w S).1.overtimeLimit = w.overtimeLimit :=
  (checkOvertime_fields now w S).2.2.2.2.2.1

/-- A first detection at `now` (lines 116-119 and 130). -/
theorem detectUpdate_first (now : Int) (w : Worker) (h : w.everSeen = false) :
    detectUpdate now w = { w with everSeen := true, sessionStart := some now
                                  lastDetectedAt := some now, isCurrentlyVisible := true } := by
  simp [detectUpdate, h]

/-- A detection of a seen worker that is out of frame (lines 125-126 and 130). -/
theorem detectUpdate_resume (now : Int) (w : Worker) (h : w.everSeen = true)
    (hv : w.isCurrentlyVisible = false) :
    detectUpdate now w = { w with sessionStart := some now, lastDetectedAt := some now
                                  isCurrentlyVisible := true } := by
  simp [detectUpdate, h, hv]

/-- A detection of a worker already in frame (line 130 only). -/
theorem detectUpdate_visible (now : Int) (w : Worker) (h : w.everSeen = true)
    (hv : w.isCurrentlyVisible = true) :
    detectUpdate now w = { w with lastDetectedAt := some now } := by
  simp [detectUpdate, h, hv]

/-- The end of a session whose start `t` is recorded (lines 172-177). -/
theorem lostUpdate_session (now t : Int) (w : Worker) (ht : w.sessionStart = some t)
    (h0 : t ≠ 0) :
    lostUpdate now w = { w with accumulatedSeconds := w.accumulatedSeconds + (now - t) / 1000
                                sessionStart := none, isCurrentlyVisible := false } := by
  simp [lostUpdate, ht, truthy, num, h0, msToSec]

theorem getElem?_ticker (now : Int) (s : State) (h : UniqueIds s.workers) (i : Nat) :
    (ticker now s).workers[i]? = (s.workers[i]?).map (tickWorker now) := by
  rw [ticker_eq now s h]
  simp

/-- A tick changes the timer fields of a record only through the end of a stale session. -/
theorem tickWorker_fields (now : Int) (w : Worker) :
    (tickWorker now w).accumulatedSeconds
      = (if isStale now w then lostUpdate now w else w).accumulatedSeconds ∧
    (tickWorker now w).sessionStart
      = (if isStale now w then lostUpdate now w else w).sessionStart ∧
    (tickWorker now w).isCurrentlyVisible
      = (if isStale now w then lostUpdate now w else w).isCurrentlyVisible ∧
    (tickWorker now w).everSeen
      = (if isStale now w then lostUpdate now w else w).everSeen ∧
    (tickWorker now w).lastDetectedAt
      = (if isStale now w then lostUpdate now w else w).lastDetectedAt := by
  unfold tickWorker tickRecord; dsimp only
  split <;> split <;> simp

theorem lostUpdate_fields (now : Int) (w : Worker) :
    (lostUpdate now w).everSeen = w.everSeen ∧
    (lostUpdate now w).lastDetectedAt = w.lastDetectedAt ∧
    (lostUpdate now w).overtimeAlertFired = w.overtimeAlertFired ∧
    (lostUpdate now w).overtimeLimit = w.overtimeLimit ∧
    (lostUpdate now w).isCurrentlyVisible = false := by
  unfold lostUpdate; dsimp only
  split <;> simp

theorem initial_uniqueIds : UniqueIds initialState.workers := by
  unfold UniqueIds; decide

theorem getElem?_split {ws : List Worker} {i : Nat} {w : Worker} (h : ws[i]? = some w) :
    ∃ pre suf, ws = pre ++ w :: suf ∧ pre.length = i := by
  induction ws generalizing i with
  | nil => simp at h
  | cons a ws ih =>
    cases i with
    | zero =>
      simp at h
      exact ⟨[], ws, by simp [h], rfl⟩
    | succ j =>
      simp at h
      obtain ⟨pre, suf, h1, h2⟩ := ih h
      exact ⟨a :: pre, suf, by simp [h1], by simp [h2]⟩

theorem uniqueIds_pre {pre : List Worker} {w : Worker} {suf : List Worker}
    (h : UniqueIds (pre ++ w :: suf)) : ∀ v ∈ pre, v.id ≠ w.id := by
  intro v hv he
  unfold UniqueIds at h
  rw [List.map_append, List.nodup_append] at h
  exact h.2.2 (List.mem_map_of_mem _ hv) (by simp [he])

theorem isStale_eq_spec (now : Int) (w : Worker) (hz : w.lastDetectedAt ≠ some 0) :
    isStale now w = staleBySpec now w := by
  unfold isStale staleBySpec
  cases h : w.lastDetectedAt with
  | none => simp [truthy]
  | some t =>
    have : t ≠ 0 := by intro h0; apply hz; rw [h, h0]
    simp [truthy, num, this]

theorem forall₂_replace {R : Worker → Worker → Prop} (hR : ∀ a, R a a) (pre : List Worker)
    (w x : Worker) (suf : List Worker) (h : R w x) :
    List.Forall₂ R (pre ++ w :: suf) (pre ++ x :: suf) :=
  List.rel_append (List.forall₂_same.2 (fun a _ => hR a))
    (List.Forall₂.cons h (List.forall₂_same.2 (fun a _ => hR a)))

theorem detectUpdate_accumulatedSeconds (now : Int) (w : Worker) :
    (detectUpdate now w).accumulatedSeconds = w.accumulatedSeconds := by
  unfold detectUpdate; dsimp only
  split
  · rfl
  · split <;> rfl

/-- With the clock at or past the session start, the end of a session never lowers
`accumulatedSeconds`. -/
theorem lostUpdate_accumulatedSeconds_le (now : Int) (w : Worker)
    (h : ∀ t, w.sessionStart = some t → t ≤ now) :
    w.accumulatedSeconds ≤ (lostUpdate now w).accumulatedSeconds := by
  unfold lostUpdate; dsimp only
  cases hs : w.sessionStart with
  | none => simp [truthy]
  | some t =>
    have ht : t ≤ now := h t hs
    by_cases h0 : t = 0
    · simp [truthy, h0]
    · simp only [truthy, num, msToSec, h0, ne_eq, not_false_eq_true, decide_True, if_true]
      omega

/-! ### Every handler rewrites records in place -/

theorem simOvertime_found {now : Int} {s t : State} (h : simOvertime now s = some t) :
    ∃ pre w suf, s.workers = pre ++ w :: suf ∧
      t = ⟨pre ++ (checkOvertime now (simUpdate now w) s.S).1 :: suf, s.totalDetectedToday,
            (checkOvertime now (simUpdate now w) s.S).2⟩ := by
  unfold simOvertime at h
  cases hf : findFirst (fun x => decide (getSecondsOnSite now x < x.overtimeLimit)) s.workers with
  | some r =>
    obtain ⟨i, w⟩ := r
    obtain ⟨pre, suf, hws, hlen, _, _⟩ := findFirst_some _ _ _ _ hf
    simp only [hf] at h
    refine ⟨pre, w, suf, hws, ?_⟩
    rw [← Option.some.inj h, hws, ← hlen, set_mid]
  | none =>
    simp only [hf] at h
    cases hws : s.workers with
    | nil => simp [hws] at h
    | cons w tl =>
      simp only [hws, List.getElem?_cons_zero, Option.map_some'] at h
      refine ⟨[], w, tl, rfl, ?_⟩
      rw [← Option.some.inj h]
      simp

theorem workerDetected_all (P : Worker → Prop) (now : Int) (id : String) (s : State)
    (hP : ∀ w ∈ s.workers, P w)
    (hD : ∀ w ∈ s.workers, w.id = id → P (checkOvertime now (detectUpdate now w) s.S).1) :
    ∀ w ∈ (workerDetected now id s).workers, P w := by
  cases hf : findWorker id s.workers with
  | none => simpa [workerDetected, hf] using hP
  | some r =>
    obtain ⟨i, w⟩ := r
    obtain ⟨pre, suf, hws, _, _, hid, hD2⟩ := workerDetected_found now hf
    rw [hD2]
    rw [hws] at hP hD
    intro v hv
    simp only [List.mem_append, List.mem_cons] at hv
    rcases hv with hv | rfl | hv
    · exact hP v (by simp [hv])
    · exact hD w (by simp) hid
    · exact hP v (by simp [hv])

theorem workerLost_all (P : Worker → Prop) (now : Int) (id : String) (s : State)
    (hP : ∀ w ∈ s.workers, P w)
    (hL : ∀ w ∈ s.workers, w.isCurrentlyVisible = true → P (lostUpdate now w)) :
    ∀ w ∈ (workerLost now id s).workers, P w := by
  cases hf : findWorker id s.workers with
  | none => simpa [workerLost, hf] using hP
  | some r =>
    obtain ⟨i, w⟩ := r
    obtain ⟨pre, suf, hws, _, _, _, hL2⟩ := workerLost_found now hf
    rw [hL2]
    rw [hws] at hP hL
    intro v hv
    simp only [List.mem_append, List.mem_cons] at hv
    rcases hv with hv | rfl | hv
    · exact hP v (by simp [hv])
    · split
      · next h => exact hL w (by simp) h
      · exact hP w (by simp)
    · exact hP v (by simp [hv])

theorem ticker_all (P : Worker → Prop) (now : Int) (s : State) (hU : UniqueIds s.workers)
    (hT : ∀ w ∈ s.workers, P (tickWorker now w)) :
    ∀ w ∈ (ticker now s).workers, P w := by
  rw [ticker_eq now s hU]
  intro v hv
  simp only [List.mem_map] at hv
  obtain ⟨w, hw, rfl⟩ := hv
  exact hT w hw

theorem simOvertime_all (P : Worker → Prop) (now : Int) (s t : State)
    (h : simOvertime now s = some t) (hP : ∀ w ∈ s.workers, P w)
    (hS : ∀ w ∈ s.workers, P (checkOvertime now (simUpdate now w) s.S).1) :
    ∀ w ∈ t.workers, P w := by
  obtain ⟨pre, w, suf, hws, rfl⟩ := simOvertime_found h
  rw [hws] at hP hS
  intro v hv
  simp only [List.mem_append, List.mem_cons] at hv
  rcases hv with hv | rfl | hv
  · exact hP v (by simp [hv])
  · exact hS w (by simp)
  · exact hP v (by simp [hv])

@[simp] theorem simUpdate_id (now : Int) (w : Worker) : (simUpdate now w).id = w.id := rfl

@[simp] theorem resetWorker_id (w : Worker) : (resetWorker w).id = w.id := rfl

/-- No handler changes the ids of the roster or their order. -/
theorem step_ids (s : State) (e : Event) (hU : UniqueIds s.workers) :
    (step s e).workers.map (fun w => w.id) = s.workers.map (fun w => w.id) := by
  cases e with
  | detected now id =>
    simp only [step]
    cases hf : findWorker id s.workers with
    | none => simp [workerDetected, hf]
    | some r =>
      obtain ⟨i, w⟩ := r
      obtain ⟨pre, suf, hws, _, _, _, hD⟩ := workerDetected_found now hf
      rw [hD, hws]; simp
  | lost now id =>
    simp only [step]
    cases hf : findWorker id s.workers with
    | none => simp [workerLost, hf]
    | some r =>
      obtain ⟨i, w⟩ := r
      obtain ⟨pre, suf, hws, _, _, _, hL⟩ := workerLost_found now hf
      rw [hL, hws]
      split <;> simp
  | tick now =>
    simp only [step]
    rw [ticker_eq now s hU]
    simp [Function.comp_def]
  | simulate now =>
    simp only [step]
    cases h : simOvertime now s with
    | none => simp
    | some t =>
      obtain ⟨pre, w, suf, hws, rfl⟩ := simOvertime_found h
      simp [hws]
  | reset =>
    simp [step, resetWorkers, Function.comp_def]

theorem step_uniqueIds (s : State) (e : Event) (hU : UniqueIds s.workers) :
    UniqueIds (step s e).workers := by
  unfold UniqueIds at *
  rw [step_ids s e hU]; exact hU

theorem run_ids (evs : List Event) (s : State) (hU : UniqueIds s.workers) :
    (run evs s).workers.map (fun w => w.id) = s.workers.map (fun w => w.id) := by
  induction evs generalizing s with
  | nil => rfl
  | cons e evs ih =>
    show (run evs (step s e)).workers.map _ = _
    rw [ih (step s e) (step_uniqueIds s e hU), step_ids s e hU]

theorem run_uniqueIds (evs : List Event) (s : State) (hU : UniqueIds s.workers) :
    UniqueIds (run evs s).workers := by
  unfold UniqueIds at *
  rw [run_ids evs s hU]; exact hU

/-! ### The overtime latch -/

theorem quietFor_refl (id : String) (S : Shared) : QuietFor id S S := ⟨rfl, rfl, rfl⟩

theorem quietFor_trans {id : String} {S S1 S2 : Shared} (h1 : QuietFor id S S1)
    (h2 : QuietFor id S1 S2) : QuietFor id S S2 := by
  unfold QuietFor at *
  refine ⟨h2.1.trans h1.1, ?_, ?_⟩ <;> omega

theorem checkOvertime_quiet (now : Int) (id : String) (w : Worker) (S : Shared)
    (h : w.id = id → w.overtimeAlertFired = true) :
    QuietFor id S (checkOvertime now w S).2 := by
  unfold checkOvertime QuietFor; dsimp only
  split
  · next hc =>
    have hf : w.overtimeAlertFired = false := by
      simp only [Bool.and_eq_true, Bool.not_eq_true'] at hc; exact hc.1
    have hne : w.id ≠ id := by
      intro he; rw [h he] at hf; cases hf
    refine ⟨?_, ?_, ?_⟩
    · simp only; rw [List.count_cons_of_ne (Ne.symm hne)]
    · simp only [List.length_cons]; omega
    · simp only [List.length_cons]; omega
  · exact ⟨rfl, rfl, rfl⟩

theorem detectUpdate_overtimeAlertFired (now : Int) (w : Worker) :
    (detectUpdate now w).overtimeAlertFired = w.overtimeAlertFired := by
  unfold detectUpdate; dsimp only
  split
  · rfl
  · split <;> rfl

theorem tickWorker_latched (now : Int) (w : Worker) (h : w.overtimeAlertFired = true) :
    (tickWorker now w).overtimeAlertFired = true := by
  unfold tickWorker tickRecord; dsimp only
  split
  · have h2 : (lostUpdate now w).overtimeAlertFired = true := by
      rw [(lostUpdate_fields now w).2.2.1]; exact h
    split
    · exact (checkOvertime_fields now _ _).2.2.2.2.2.2 h2
    · exact h2
  · split
    · exact (checkOvertime_fields now _ _).2.2.2.2.2.2 h
    · exact h

theorem tickRecord_quiet (now : Int) (id : String) (w : Worker) (S : Shared)
    (h : w.id = id → w.overtimeAlertFired = true) :
    QuietFor id S (tickRecord now w S).2 := by
  unfold tickRecord; dsimp only
  split
  · split
    · apply checkOvertime_quiet
      intro he
      rw [(lostUpdate_fields now w).2.2.1]
      exact h (by simpa using he)
    · exact quietFor_refl _ _
  · split
    · exact checkOvertime_quiet now id w S h
    · exact quietFor_refl _ _

theorem tickFold_quiet (now : Int) (id : String) (ws : List Worker) :
    ∀ S : Shared, Latched id ws →
      QuietFor id S (ws.foldl (fun S w => (tickRecord now w S).2) S) := by
  induction ws with
  | nil => intro S _; exact quietFor_refl _ _
  | cons w ws ih =>
    intro S h
    simp only [List.foldl_cons]
    exact quietFor_trans (tickRecord_quiet now id w S (h w (by simp)))
      (ih _ (fun v hv => h v (by simp [hv])))

/-- A detection, a loss or a tick keeps the latch of `id` and raises no alert for `id`. -/
theorem step_latched (id : String) (s : State) (e : Event) (hU : UniqueIds s.workers)
    (hJ : Latched id s.workers) (he : e.isTracking = true) :
    Latched id (step s e).workers ∧ QuietFor id s.S (step s e).S := by
  cases e with
  | detected now id1 =>
    simp only [step]
    constructor
    · apply workerDetected_all _ now id1 s hJ
      intro w hw _ hid
      apply (checkOvertime_fields now _ _).2.2.2.2.2.2
      rw [detectUpdate_overtimeAlertFired]
      exact hJ w hw (by simpa using hid)
    · cases hf : findWorker id1 s.workers with
      | none => simp only [workerDetected, hf]; exact quietFor_refl _ _
      | some r =>
        obtain ⟨i, w⟩ := r
        obtain ⟨pre, suf, hws, _, _, _, hD⟩ := workerDetected_found now hf
        rw [hD]
        apply checkOvertime_quiet
        intro hid
        rw [detectUpdate_overtimeAlertFired]
        exact hJ w (by rw [hws]; simp) (by simpa using hid)
  | lost now id1 =>
    simp only [step]
    constructor
    · apply workerLost_all _ now id1 s hJ
      intro w hw _ hid
      rw [(lostUpdate_fields now w).2.2.1]
      exact hJ w hw (by simpa using hid)
    · have : (workerLost now id1 s).S = s.S := by
        unfold workerLost
        split
        · rfl
        · split <;> rfl
      rw [this]; exact quietFor_refl _ _
  | tick now =>
    simp only [step]
    constructor
    · exact ticker_all (fun v => v.id = id → v.overtimeAlertFired = true) now s hU
        (fun w hw hid => tickWorker_latched now w (hJ w hw (by simpa using hid)))
    · rw [ticker_eq now s hU]
      exact tickFold_quiet now id s.workers s.S hJ
  | simulate now => simp [Event.isTracking] at he
  | reset => simp [Event.isTracking] at he

theorem run_latched (id : String) (evs : List Event) :
    ∀ s : State, UniqueIds s.workers → Latched id s.workers →
      (∀ e ∈ evs, e.isTracking = true) →
      Latched id (run evs s).workers ∧ QuietFor id s.S (run evs s).S := by
  induction evs with
  | nil => intro s _ hJ _; exact ⟨hJ, quietFor_refl _ _⟩
  | cons e evs ih =>
    intro s hU hJ he
    obtain ⟨h1, h2⟩ := step_latched id s e hU hJ (he e (by simp))
    obtain ⟨h3, h4⟩ := ih (step s e) (step_uniqueIds s e hU) h1
      (fun x hx => he x (by simp [hx]))
    exact ⟨h3, quietFor_trans h2 h4⟩

theorem latched_of_mem {s : State} {w : Worker} (hU : UniqueIds s.workers)
    (hw : w ∈ s.workers) (hfired : w.overtimeAlertFired = true) : Latched w.id s.workers := by
  intro v hv hid
  obtain ⟨i, hi⟩ := List.getElem?_of_mem hw
  obtain ⟨pre, suf, hws, _⟩ := getElem?_split hi
  have hpre := uniqueIds_pre (hws ▸ hU)
  rw [hws] at hv hU
  simp only [List.mem_append, List.mem_cons] at hv
  rcases hv with hv | rfl | hv
  · exact absurd hid (hpre v hv)
  · exact hfired
  · exfalso
    unfold UniqueIds at hU
    rw [List.map_append, List.nodup_append] at hU
    have h2 := hU.2.1
    simp only [List.map_cons, List.nodup_cons, List.mem_map, not_exists, not_and] at h2
    exact h2.1 v hv hid

/-! ### The session start and the visibility flag -/

theorem sessionOk_checkOvertime (now : Int) (w : Worker) (S : Shared) (h : SessionOk w) :
    SessionOk (checkOvertime now w S).1 := by
  unfold SessionOk at *
  simpa using h

theorem sessionOk_detectUpdate (now : Int) (w : Worker) (h0 : now ≠ 0) (h : SessionOk w) :
    SessionOk (detectUpdate now w) := by
  unfold SessionOk at *
  cases hs : w.everSeen
  · rw [detectUpdate_first now w hs]; simp [h0]
  · cases hv : w.isCurrentlyVisible
    · rw [detectUpdate_resume now w hs hv]; simp [h0]
    · rw [detectUpdate_visible now w hs hv]; simpa [hv] using h

theorem sessionOk_lostUpdate (now : Int) (w : Worker) (hv : w.isCurrentlyVisible = true)
    (h : SessionOk w) : SessionOk (lostUpdate now w) := by
  unfold SessionOk at *
  cases hs : w.sessionStart with
  | none => rw [hs] at h; exact absurd (h.1.2 hv) (by simp)
  | some t =>
    have ht : t ≠ 0 := by intro h0; apply h.2; rw [hs, h0]
    rw [lostUpdate_session now t w hs ht]; simp

theorem sessionOk_tickWorker (now : Int) (w : Worker) (h : SessionOk w) :
    SessionOk (tickWorker now w) := by
  obtain ⟨_, f2, f3, _, _⟩ := tickWorker_fields now w
  by_cases hst : isStale now w = true
  · have hv : w.isCurrentlyVisible = true := by
      unfold isStale at hst; simp at hst; exact hst.1.1
    have h2 := sessionOk_lostUpdate now w hv h
    unfold SessionOk at *
    rw [f2, f3]; simpa [hst] using h2
  · unfold SessionOk at *
    rw [f2, f3]; simpa [hst] using h

theorem sessionOk_simUpdate (now : Int) (w : Worker) : SessionOk (simUpdate now w) := by
  unfold SessionOk simUpdate; simp

theorem sessionOk_resetWorker (w : Worker) : SessionOk (resetWorker w) := by
  unfold SessionOk resetWorker; simp

theorem step_sessionOk (s : State) (e : Event) (hU : UniqueIds s.workers)
    (h0 : e.stamp ≠ some 0) (h : ∀ w ∈ s.workers, SessionOk w) :
    ∀ w ∈ (step s e).workers, SessionOk w := by
  cases e with
  | detected now id =>
    have hn : now ≠ 0 := by intro hz; apply h0; simp [Event.stamp, hz]
    exact workerDetected_all SessionOk now id s h
      (fun w hw _ => sessionOk_checkOvertime now _ _ (sessionOk_detectUpdate now w hn (h w hw)))
  | lost now id =>
    exact workerLost_all SessionOk now id s h
      (fun w hw hv => sessionOk_lostUpdate now w hv (h w hw))
  | tick now =>
    exact ticker_all SessionOk now s hU (fun w hw => sessionOk_tickWorker now w (h w hw))
  | simulate now =>
    simp only [step]
    cases hs : simOvertime now s with
    | none => simpa using h
    | some t =>
      exact simOvertime_all SessionOk now s t hs h
        (fun w _ => sessionOk_checkOvertime now _ _ (sessionOk_simUpdate now w))
  | reset =>
    simp only [step, resetWorkers]
    intro w hw
    obtain ⟨v, _, rfl⟩ := List.mem_map.1 hw
    exact sessionOk_resetWorker v

theorem run_sessionOk (evs : List Event) :
    ∀ s : State, UniqueIds s.workers → (∀ e ∈ evs, e.stamp ≠ some 0) →
      (∀ w ∈ s.workers, SessionOk w) → ∀ w ∈ (run evs s).workers, SessionOk w := by
  induction evs with
  | nil => intro s _ _ h; exact h
  | cons e evs ih =>
    intro s hU h0 h
    exact ih (step s e) (step_uniqueIds s e hU) (fun x hx => h0 x (by simp [hx]))
      (step_sessionOk s e hU (h0 e (by simp)) h)

/-! ### The timer against the visible intervals -/

theorem wholeSeconds_eq (a b : Int) : wholeSeconds a b = (b - a) / 1000 := by
  unfold wholeSeconds
  rw [← msToSec_eq_floor]; rfl

theorem tracks_getSecondsOnSite (now : Int) (w : Worker) (v : Intervals) (h : Tracks w v) :
    getSecondsOnSite now w = v.total now := by
  obtain ⟨h1, h2, h3, h4, h5⟩ := h
  unfold getSecondsOnSite Intervals.total
  cases hs : w.everSeen
  · obtain ⟨ho, ha⟩ := h5 hs
    simp [ho, ← h4, ha]
  · cases ho : v.openSince with
    | none =>
      rw [ho] at h2
      simp [h2, ← h4]
    | some a =>
      rw [ho] at h1 h2 h3
      have ha : a ≠ 0 := by intro h0; apply h3; rw [h0]
      simp [h1, h2, truthy, num, ha, msToSec, wholeSeconds_eq a now, ← h4]

theorem tracks_checkOvertime (now : Int) (w : Worker) (S : Shared) (v : Intervals)
    (h : Tracks w v) : Tracks (checkOvertime now w S).1 v := by
  unfold Tracks at *
  simpa using h

theorem tracks_detectUpdate (t : Int) (w : Worker) (v : Intervals) (h0 : t ≠ 0)
    (h : Tracks w v) : Tracks (detectUpdate t w) (v.observe (Signal.seen t)) := by
  obtain ⟨h1, h2, h3, h4, h5⟩ := h
  unfold Tracks Intervals.observe
  cases hs : w.everSeen
  · obtain ⟨ho, ha⟩ := h5 hs
    rw [detectUpdate_first t w hs]
    simp [ho, h0, ← h4]
  · cases ho : v.openSince with
    | none =>
      rw [ho] at h2
      rw [detectUpdate_resume t w hs h2]
      simp [h0, ← h4, hs]
    | some a =>
      rw [ho] at h1 h2 h3
      rw [detectUpdate_visible t w hs h2]
      simp [ho, h1, h2, h3, ← h4, hs]

theorem tracks_lostUpdate (t : Int) (w : Worker) (v : Intervals) (h : Tracks w v) :
    Tracks (if w.isCurrentlyVisible then lostUpdate t w else w) (v.observe (Signal.gone t)) := by
  have hall := h
  obtain ⟨h1, h2, h3, h4, h5⟩ := h
  unfold Intervals.observe
  cases ho : v.openSince with
  | none =>
    rw [ho] at h2
    simp only [h2, Bool.false_eq_true, if_false]
    exact hall
  | some a =>
    rw [ho] at h1 h2 h3
    have ha : a ≠ 0 := by intro h0; apply h3; rw [h0]
    have hs : w.everSeen = true := by
      cases hs : w.everSeen
      · have := (h5 hs).1; rw [ho] at this; cases this
      · rfl
    simp only [h2, Option.isSome_some, if_true]
    rw [lostUpdate_session t a w h1 ha]
    unfold Tracks
    simp [wholeSeconds_eq a t, h4, hs]
    omega

theorem run_tracks (id : String) (i : Nat) (sigs : List Signal) :
    ∀ (s : State) (w : Worker) (v : Intervals), findWorker id s.workers = some (i, w) →
      (∀ g ∈ sigs, g.time ≠ 0) → Tracks w v →
      ∃ u, findWorker id (run (sigs.map (Signal.toEvent id)) s).workers = some (i, u) ∧
        Tracks u (sigs.foldl Intervals.observe v) := by
  induction sigs with
  | nil => intro s w v hf _ h; exact ⟨w, hf, h⟩
  | cons g sigs ih =>
    intro s w v hf hclock h
    have hrest : ∀ x ∈ sigs, x.time ≠ 0 := fun x hx => hclock x (by simp [hx])
    cases g with
    | seen t =>
      have ht : t ≠ 0 := hclock (Signal.seen t) (by simp)
      obtain ⟨pre, suf, hws, hlen, hpre, hid, hD⟩ := workerDetected_found t hf
      have hfind : findWorker id (workerDetected t id s).workers
          = some (i, (checkOvertime t (detectUpdate t w) s.S).1) := by
        rw [hD, ← hlen, ← hid]
        have := findWorker_split pre (checkOvertime t (detectUpdate t w) s.S).1 suf
          (by simpa using fun x hx => hid ▸ hpre x hx)
        simpa using this
      exact ih (workerDetected t id s) _ _ hfind hrest
        (tracks_checkOvertime t _ _ _ (tracks_detectUpdate t w v ht h))
    | gone t =>
      obtain ⟨pre, suf, hws, hlen, hpre, hid, hL⟩ := workerLost_found t hf
      have hfind : findWorker id (workerLost t id s).workers
          = some (i, if w.isCurrentlyVisible then lostUpdate t w else w) := by
        rw [hL, ← hlen, ← hid]
        have := findWorker_split pre (if w.isCurrentlyVisible then lostUpdate t w else w) suf
          (by
            have hx : (if w.isCurrentlyVisible then lostUpdate t w else w).id = w.id := by
              split <;> simp
            rw [hx]; exact fun x hx => hid ▸ hpre x hx)
        have hx : (if w.isCurrentlyVisible then lostUpdate t w else w).id = w.id := by
          split <;> simp
        rw [hx] at this
        exact this
      exact ih (workerLost t id s) _ _ hfind hrest (tracks_lostUpdate t w v h)

/-- The truthiness tests take a session start of 0 for a session start that is not set: a
session begun at the clock reading 0 is not counted by `workerLost`, and the record keeps
`sessionStart = 0` while out of frame.  No run of the page reads 0 from `Date.now()`; the
statements below that depend on it are made for readings other than 0. -/
theorem reading_zero_not_counted :
    (run [Event.detected 0 "W-001", Event.lost 3000 "W-001"] initialState).workers.map
      (fun w => (w.accumulatedSeconds, w.sessionStart, w.isCurrentlyVisible))
      = [(0, some 0, false), (0, none, false), (0, none, false), (0, none, false)] := by
  decide

/-! ### A second tick at the same clock reading -/

theorem getSecondsOnSite_checkOvertime (now later : Int) (w : Worker) (S : Shared) :
    getSecondsOnSite later (checkOvertime now w S).1 = getSecondsOnSite later w := by
  simp [getSecondsOnSite]

theorem checkOvertime_again (now : Int) (w : Worker) (S0 S : Shared) :
    checkOvertime now (checkOvertime now w S0).1 S = ((checkOvertime now w S0).1, S) := by
  by_cases hc : (!w.overtimeAlertFired && decide (getSecondsOnSite now w ≥ w.overtimeLimit)) = true
  · have h1 : (checkOvertime now w S0).1.overtimeAlertFired = true := by
      unfold checkOvertime; simp [hc]
    generalize (checkOvertime now w S0).1 = x at h1
    unfold checkOvertime
    simp [h1]
  · have h1 : (checkOvertime now w S0).1 = w := by
      unfold checkOvertime; dsimp only; rw [if_neg hc]
    rw [h1]
    unfold checkOvertime; dsimp only; rw [if_neg hc]

theorem isStale_checkOvertime (now later : Int) (w : Worker) (S : Shared) :
    isStale later (checkOvertime now w S).1 = isStale later w := by
  simp [isStale]

theorem isStale_lostUpdate (now later : Int) (w : Worker) :
    isStale later (lostUpdate now w) = false := by
  simp [isStale, (lostUpdate_fields now w).2.2.2.2]

/-- After a tick at `now`, the body of the ticker at the same `now` finds nothing to do. -/
theorem tickRecord_tickWorker (now : Int) (w : Worker) (S : Shared) :
    tickRecord now (tickWorker now w) S = (tickWorker now w, S) := by
  obtain ⟨v, hv⟩ : ∃ v, v = (if isStale now w then lostUpdate now w else w) := ⟨_, rfl⟩
  have hvs : isStale now v = false := by
    rw [hv]; split
    · exact isStale_lostUpdate now now w
    · next h => simpa using h
  have htw : tickWorker now w = if v.everSeen then (checkOvertime now v emptyShared).1 else v := by
    unfold tickWorker tickRecord; dsimp only; rw [← hv]; split <;> rfl
  rw [htw]
  by_cases hs : v.everSeen = true
  · simp only [hs, if_true]
    unfold tickRecord; dsimp only
    rw [isStale_checkOvertime, hvs]
    simp only [Bool.false_eq_true, if_false, checkOvertime_everSeen, hs, if_true]
    exact checkOvertime_again now v emptyShared S
  · simp only [hs, if_false]
    unfold tickRecord; dsimp only
    simp [hvs, hs]

theorem tickWorker_tickWorker (now : Int) (w : Worker) :
    tickWorker now (tickWorker now w) = tickWorker now w := by
  show (tickRecord now (tickWorker now w) emptyShared).1 = _
  rw [tickRecord_tickWorker]

theorem tickFold_after_tick (now : Int) (ws : List Worker) :
    ∀ S : Shared, (ws.map (tickWorker now)).foldl (fun S w => (tickRecord now w S).2) S = S := by
  induction ws with
  | nil => intro S; rfl
  | cons w ws ih =>
    intro S
    simp only [List.map_cons, List.foldl_cons, tickRecord_tickWorker]
    exact ih S

/-! ### Detections only: one open interval -/

theorem observe_all_seen (cl : List (Int × Int)) (t : Int) (sigs : List Signal)
    (h : ∀ g ∈ sigs, g.isSeen = true) :
    sigs.foldl Intervals.observe { closed := cl, openSince := some t }
      = { closed := cl, openSince := some t } := by
  induction sigs with
  | nil => rfl
  | cons g sigs ih =>
    have hg := h g (by simp)
    cases g with
    | gone u => simp [Signal.isSeen] at hg
    | seen u =>
      simp only [List.foldl_cons, Intervals.observe]
      exact ih (fun x hx => h x (by simp [hx]))

/-! ### The counts of the overview and of the worker table -/

/-- The overview count reads a property that no record has: it is 0 in every state. -/
theorem updateOvStats_ot_eq_zero (s : State) : updateOvStats_ot s = 0 := by
  simp [updateOvStats_ot, Worker.totalSeconds, geNumber]

theorem updateNavBadges_ot_eq_zero (s : State) : updateNavBadges_ot s = 0 := by
  simp [updateNavBadges_ot, Worker.totalSeconds, geNumber]

/-! ### The counter of workers seen today -/

theorem detectUpdate_everSeen (now : Int) (w : Worker) : (detectUpdate now w).everSeen = true := by
  cases hs : w.everSeen
  · rw [detectUpdate_first now w hs]
  · cases hv : w.isCurrentlyVisible
    · rw [detectUpdate_resume now w hs hv]; exact hs
    · rw [detectUpdate_visible now w hs hv]; exact hs

theorem tickWorker_everSeen (now : Int) (w : Worker) : (tickWorker now w).everSeen = w.everSeen := by
  rw [(tickWorker_fields now w).2.2.2.1]
  split
  · exact (lostUpdate_fields now w).1
  · rfl

theorem step_count (s : State) (e : Event) (hU : UniqueIds s.workers) (he : e.isDemo = false)
    (h : s.totalDetectedToday = s.workers.countP (fun w => w.everSeen)) :
    (step s e).totalDetectedToday = (step s e).workers.countP (fun w => w.everSeen) := by
  cases e with
  | detected now id =>
    simp only [step]
    cases hf : findWorker id s.workers with
    | none => simpa [workerDetected, hf] using h
    | some r =>
      obtain ⟨i, w⟩ := r
      obtain ⟨pre, suf, hws, _, _, _, hD⟩ := workerDetected_found now hf
      rw [hD]
      rw [hws] at h
      simp only [List.countP_append, List.countP_cons, checkOvertime_everSeen,
        detectUpdate_everSeen, if_true] at h ⊢
      cases hs : w.everSeen
      · simp only [hs, Bool.false_eq_true, if_false] at h ⊢; omega
      · simp only [hs, if_true] at h ⊢; omega
  | lost now id =>
    simp only [step]
    cases hf : findWorker id s.workers with
    | none => simpa [workerLost, hf] using h
    | some r =>
      obtain ⟨i, w⟩ := r
      obtain ⟨pre, suf, hws, _, _, _, hL⟩ := workerLost_found now hf
      rw [hL]
      rw [hws] at h
      have hx : (if w.isCurrentlyVisible then lostUpdate now w else w).everSeen = w.everSeen := by
        split
        · exact (lostUpdate_fields now w).1
        · rfl
      simp only [List.countP_append, List.countP_cons, hx] at h ⊢
      exact h
  | tick now =>
    simp only [step]
    rw [ticker_eq now s hU]
    simp only [List.countP_map]
    rw [h]
    congr 1
    funext w
    simp [tickWorker_everSeen]
  | simulate now => simp [Event.isDemo] at he
  | reset =>
    simp only [step, resetWorkers, List.countP_map]
    symm
    rw [List.countP_eq_zero]
    intro w _
    simp [resetWorker]

theorem run_count (evs : List Event) :
    ∀ s : State, UniqueIds s.workers → (∀ e ∈ evs, e.isDemo = false) →
      s.totalDetectedToday = s.workers.countP (fun w => w.everSeen) →
      (run evs s).totalDetectedToday = (run evs s).workers.countP (fun w => w.everSeen) := by
  induction evs with
  | nil => intro s _ _ h; exact h
  | cons e evs ih =>
    intro s hU he h
    exact ih (step s e) (step_uniqueIds s e hU) (fun x hx => he x (by simp [hx]))
      (step_count s e hU (he e (by simp)) h)

/-! ## The claims -/

/-- C1: a registered worker in its freshly reset state receives any sequence of
`workerDetected` / `workerLost` calls, at clock readings in any order (so in particular at
non-decreasing ones).  Afterwards `getSecondsOnSite`, at any time `now`, equals the sum of
the lengths in whole seconds of the intervals during which the worker was visible, plus the
length of the open interval if the worker is still visible: the time between a loss and the
next detection is not counted and no interval is counted twice.  A clock reading is a value
of `Date.now()`, never 0. -/
theorem onSite_eq_visibleSeconds (s : State) (id : String) (i : Nat) (w0 : Worker)
    (sigs : List Signal) (now : Int)
    (hf : findWorker id s.workers = some (i, w0)) (hfresh : resetWorker w0 = w0)
    (hclock : ∀ g ∈ sigs, g.time ≠ 0) :
    ∃ w, findWorker id (run (sigs.map (Signal.toEvent id)) s).workers = some (i, w) ∧
      getSecondsOnSite now w = visibleSeconds sigs now := by
  have h1 : w0.sessionStart = none := (congrArg Worker.sessionStart hfresh).symm
  have h2 : w0.isCurrentlyVisible = false := (congrArg Worker.isCurrentlyVisible hfresh).symm
  have h3 : w0.accumulatedSeconds = 0 := (congrArg Worker.accumulatedSeconds hfresh).symm
  have htr : Tracks w0 { closed := [], openSince := none } := by
    unfold Tracks; simp [h1, h2, h3]
  obtain ⟨u, hu, htu⟩ := run_tracks id i sigs s w0 _ hf hclock htr
  exact ⟨u, hu, tracks_getSecondsOnSite now u _ htu⟩

/-- C1, the scenario: `W-001` detected at `T0`, lost 3 s later, detected 10 s after `T0`,
lost 13 s after `T0`.  The two visible intervals add up to 6 seconds, and
`accumulatedSeconds` is 6, not 13. -/
theorem onSite_eq_visibleSeconds_witness :
    (∃ w, findWorker "W-001"
        (run ([Signal.seen T0, Signal.gone (T0 + 3000), Signal.seen (T0 + 10000),
            Signal.gone (T0 + 13000)].map (Signal.toEvent "W-001")) initialState).workers
          = some (0, w) ∧
      getSecondsOnSite (T0 + 20000) w
        = visibleSeconds [Signal.seen T0, Signal.gone (T0 + 3000), Signal.seen (T0 + 10000),
            Signal.gone (T0 + 13000)] (T0 + 20000)) ∧
    visibleSeconds [Signal.seen T0, Signal.gone (T0 + 3000), Signal.seen (T0 + 10000),
      Signal.gone (T0 + 13000)] (T0 + 20000) = 6 ∧
    (run ([Signal.seen T0, Signal.gone (T0 + 3000), Signal.seen (T0 + 10000),
        Signal.gone (T0 + 13000)].map (Signal.toEvent "W-001")) initialState).workers.map
      (fun w => w.accumulatedSeconds) = [6, 0, 0, 0] :=
  ⟨onSite_eq_visibleSeconds initialState "W-001" 0
      (mkWorker "Aarush" "W-001" "👷" "#4f8ef7" (9 * 3600)) _ (T0 + 20000)
      (by decide) (by decide) (by decide),
   by simp [visibleSeconds, intervalsOf, Intervals.observe, Intervals.total, wholeSeconds_eq, T0],
   by decide⟩

/-- C2: `getSecondsOnSite` returns 0 for a worker never seen; for a seen worker that is
visible, with its session start recorded, it returns
`accumulatedSeconds + floor((now - sessionStart)/1000)`; for a seen worker that is not
visible it returns `accumulatedSeconds`.  The function is a query: it yields the number and
no record.  The session start of a visible worker is a clock reading, hence not 0. -/
theorem getSecondsOnSite_cases (now : Int) (w : Worker) :
    (w.everSeen = false → getSecondsOnSite now w = 0) ∧
    (w.everSeen = true → w.isCurrentlyVisible = true →
      ∀ t : Int, w.sessionStart = some t → t ≠ 0 →
        getSecondsOnSite now w = w.accumulatedSeconds + ⌊((now - t : Int) : ℚ) / 1000⌋) ∧
    (w.everSeen = true → w.isCurrentlyVisible = false →
      getSecondsOnSite now w = w.accumulatedSeconds) := by
  refine ⟨?_, ?_, ?_⟩
  · intro h; simp [getSecondsOnSite, h]
  · intro h hv t ht h0
    simp [getSecondsOnSite, h, hv, ht, truthy, num, h0, msToSec_eq_floor]
  · intro h hv; simp [getSecondsOnSite, h, hv]

/-- C2, at a concrete record: `W-001` detected at `T0` and asked 7.5 s later. -/
theorem getSecondsOnSite_cases_witness :
    getSecondsOnSite (T0 + 7500) seenAarush
      = seenAarush.accumulatedSeconds + ⌊((T0 + 7500 - T0 : Int) : ℚ) / 1000⌋ :=
  (getSecondsOnSite_cases (T0 + 7500) seenAarush).2.1 (by decide) (by decide) T0 (by decide)
    (by decide)

/-- C3: overtime latch.  On a roster with unique ids, let `w` be a worker whose
`overtimeAlertFired` is true.  After any sequence of `workerDetected`, `workerLost` and
ticker steps (no reset), at any clock readings and for any ids, no further overtime alert
has been raised for `w`: the log holds as many alerts naming `w.id` as before, every
increment of `S.violations` and every `notify` since then belongs to a logged alert (of
another worker), and the record with that id is still there with `overtimeAlertFired` true. -/
theorem overtime_latch (s : State) (w : Worker) (evs : List Event)
    (hU : UniqueIds s.workers) (hw : w ∈ s.workers) (hfired : w.overtimeAlertFired = true)
    (hev : ∀ e ∈ evs, e.isTracking = true) :
    (run evs s).S.overtimeLog.count w.id = s.S.overtimeLog.count w.id ∧
    (run evs s).S.violations + s.S.overtimeLog.length
      = s.S.violations + (run evs s).S.overtimeLog.length ∧
    (run evs s).S.notifCount + s.S.overtimeLog.length
      = s.S.notifCount + (run evs s).S.overtimeLog.length ∧
    (∃ v ∈ (run evs s).workers, v.id = w.id) ∧
    (∀ v ∈ (run evs s).workers, v.id = w.id → v.overtimeAlertFired = true) := by
  obtain ⟨hJ, hQ⟩ := run_latched w.id evs s hU (latched_of_mem hU hw hfired) hev
  refine ⟨hQ.1, hQ.2.1, hQ.2.2, ?_, hJ⟩
  have hmem : w.id ∈ (run evs s).workers.map (fun v => v.id) := by
    rw [run_ids evs s hU]; exact List.mem_map_of_mem _ hw
  obtain ⟨v, hv, hid⟩ := List.mem_map.1 hmem
  exact ⟨v, hv, hid⟩

/-- C3, the scenario: limit 5 s, `W-001` detected at `T0`, tick 6 s later: exactly one alert,
raised at 6 seconds on site, and the flag is set.  Then a loss at 7 s and a tick at 20 s: no
second alert. -/
theorem overtime_latch_witness :
    firedState.S.overtimeLog = ["W-001"] ∧ firedState.S.violations = 1 ∧
    firedState.workers[0]? = some firedAarush ∧
    getSecondsOnSite (T0 + 6000) firedAarush = 6 ∧
    ((run [Event.lost (T0 + 7000) "W-001", Event.tick (T0 + 20000)] firedState).S.overtimeLog.count
        firedAarush.id = firedState.S.overtimeLog.count firedAarush.id ∧
      (run [Event.lost (T0 + 7000) "W-001", Event.tick (T0 + 20000)] firedState).S.violations
          + firedState.S.overtimeLog.length
        = firedState.S.violations
          + (run [Event.lost (T0 + 7000) "W-001", Event.tick (T0 + 20000)]
              firedState).S.overtimeLog.length ∧
      (run [Event.lost (T0 + 7000) "W-001", Event.tick (T0 + 20000)] firedState).S.notifCount
          + firedState.S.overtimeLog.length
        = firedState.S.notifCount
          + (run [Event.lost (T0 + 7000) "W-001", Event.tick (T0 + 20000)]
              firedState).S.overtimeLog.length ∧
      (∃ v ∈ (run [Event.lost (T0 + 7000) "W-001", Event.tick (T0 + 20000)] firedState).workers,
        v.id = firedAarush.id) ∧
      (∀ v ∈ (run [Event.lost (T0 + 7000) "W-001", Event.tick (T0 + 20000)] firedState).workers,
        v.id = firedAarush.id → v.overtimeAlertFired = true)) ∧
    (run [Event.lost (T0 + 7000) "W-001", Event.tick (T0 + 20000)] firedState).S.violations = 1 :=
  ⟨by decide, by decide, by decide, by decide,
   overtime_latch firedState firedAarush
     [Event.lost (T0 + 7000) "W-001", Event.tick (T0 + 20000)]
     (by unfold UniqueIds; decide) (by decide) (by decide) (by decide),
   by decide⟩

/-- C4: `checkOvertime` raises an overtime alert, exactly one (`S.violations` and
`S.notifCount` grow by exactly 1, the id is logged once, `overtimeAlertFired` becomes true and
no other field of the record changes), if and only if `overtimeAlertFired` was false and
`getSecondsOnSite(w) >= overtimeLimit`; in every other case the record and the shared object
are returned as they were. -/
theorem checkOvertime_alert_iff (now : Int) (w : Worker) (S : Shared) :
    (((checkOvertime now w S).2.violations = S.violations + 1 ∧
        (checkOvertime now w S).2.notifCount = S.notifCount + 1 ∧
        (checkOvertime now w S).2.overtimeLog = w.id :: S.overtimeLog ∧
        (checkOvertime now w S).1 = { w with overtimeAlertFired := true }) ↔
      (w.overtimeAlertFired = false ∧ getSecondsOnSite now w ≥ w.overtimeLimit)) ∧
    (¬ (w.overtimeAlertFired = false ∧ getSecondsOnSite now w ≥ w.overtimeLimit) →
      checkOvertime now w S = (w, S)) := by
  by_cases hc : w.overtimeAlertFired = false ∧ getSecondsOnSite now w ≥ w.overtimeLimit
  · have hfire : checkOvertime now w S =
        ({ w with overtimeAlertFired := true },
         { S with violations := S.violations + 1, notifCount := S.notifCount + 1,
                  overtimeLog := w.id :: S.overtimeLog }) := by
      unfold checkOvertime; simp [hc.1, hc.2]
    refine ⟨?_, fun h => absurd hc h⟩
    rw [hfire]
    simp [hc]
  · have hno : checkOvertime now w S = (w, S) := by
      unfold checkOvertime
      dsimp only
      rw [if_neg]
      intro h
      apply hc
      simpa using h
    refine ⟨?_, fun _ => hno⟩
    rw [hno]
    simp [hc]

/-- C4, at a concrete record: `W-001` of the roster, 9 hours after its first detection
and one millisecond earlier. -/
theorem checkOvertime_alert_iff_witness :
    (checkOvertime (T0 + 32400000) seenAarush emptyShared).2.violations = 1 ∧
    checkOvertime (T0 + 32399999) seenAarush emptyShared = (seenAarush, emptyShared) :=
  ⟨((checkOvertime_alert_iff (T0 + 32400000) seenAarush emptyShared).1.2
      ⟨by decide, by decide⟩).1,
   (checkOvertime_alert_iff (T0 + 32399999) seenAarush emptyShared).2 (by decide)⟩

/-- C5, refuted: `W-001` is first detected at `T0` and the next thing to run is the ticker,
11 s later.  The tick ends the session at its own clock reading: the worker is out of frame
with `accumulatedSeconds = 11`, not 10. -/
theorem stale_tick_counterexample :
    (ticker (T0 + 11000) (workerDetected T0 "W-001" initialState)).workers.map
        (fun w => (w.id, w.isCurrentlyVisible, w.accumulatedSeconds))
      = [("W-001", false, 11), ("W-002", false, 0), ("W-003", false, 0), ("W-004", false, 0)] ∧
    ¬ (∃ w ∈ (ticker (T0 + 11000) (workerDetected T0 "W-001" initialState)).workers,
        w.id = "W-001" ∧ w.accumulatedSeconds = 10) := by
  decide

/-- C5, amended: a worker never seen before (nothing accumulated) is detected at `T` and the
next thing to run is the ticker at `T + 11 s`.  That tick makes the worker not visible and
freezes the on-site duration at the value computed at the tick, `accumulatedSeconds = 11`, and
`getSecondsOnSite = 11` at every later time. -/
theorem stale_tick_freezes_at_tick (s : State) (id : String) (i : Nat) (w : Worker)
    (T later : Int) (hU : UniqueIds s.workers) (hf : findWorker id s.workers = some (i, w))
    (hnew : w.everSeen = false) (hacc : w.accumulatedSeconds = 0) (hT : T ≠ 0) :
    ∃ v, (ticker (T + 11000) (workerDetected T id s)).workers[i]? = some v ∧
      v.isCurrentlyVisible = false ∧ v.accumulatedSeconds = 11 ∧
      getSecondsOnSite later v = 11 := by
  obtain ⟨pre, suf, hws, hlen, hpre, hid, hD⟩ := workerDetected_found T hf
  have hU2 : UniqueIds (workerDetected T id s).workers := by
    rw [hD]
    exact uniqueIds_replace pre w _ suf (by simp) (hws ▸ hU)
  have hget : (workerDetected T id s).workers[i]?
      = some (checkOvertime T (detectUpdate T w) s.S).1 := by
    rw [hD, ← hlen]; exact getElem?_mid _ _ _
  rw [getElem?_ticker _ _ hU2, hget]
  refine ⟨_, rfl, ?_⟩
  have hfirst := detectUpdate_first T w hnew
  obtain ⟨w1, hw1⟩ : ∃ w1, w1 = (checkOvertime T (detectUpdate T w) s.S).1 := ⟨_, rfl⟩
  rw [← hw1]
  have h1 : w1.isCurrentlyVisible = true := by simp [hw1, hfirst]
  have h2 : w1.sessionStart = some T := by simp [hw1, hfirst]
  have h3 : w1.lastDetectedAt = some T := by simp [hw1, hfirst]
  have h4 : w1.everSeen = true := by simp [hw1, hfirst]
  have h5 : w1.accumulatedSeconds = 0 := by simp [hw1, hfirst, hacc]
  have hstale : isStale (T + 11000) w1 = true := by
    simp [isStale, h1, h3, truthy, num, hT]
  have hlost := lostUpdate_session (T + 11000) T w1 h2 hT
  have hsec : (T + 11000 - T) / 1000 = (11 : Int) := by omega
  obtain ⟨f1, f2, f3, f4, _⟩ := tickWorker_fields (T + 11000) w1
  simp only [hstale, if_true, hlost, h5, hsec, h4] at f1 f2 f3 f4
  refine ⟨f3, by simpa using f1, ?_⟩
  simp [getSecondsOnSite, f1, f3, f4]

/-- C5 amended, on the roster of the script: `W-001` first detected at `T0`. -/
theorem stale_tick_freezes_at_tick_witness :
    ∃ v, (ticker (T0 + 11000) (workerDetected T0 "W-001" initialState)).workers[0]? = some v ∧
      v.isCurrentlyVisible = false ∧ v.accumulatedSeconds = 11 ∧
      getSecondsOnSite (T0 + 60000) v = 11 :=
  stale_tick_freezes_at_tick initialState "W-001" 0
    (mkWorker "Aarush" "W-001" "👷" "#4f8ef7" (9 * 3600)) T0 (T0 + 60000)
    (by unfold UniqueIds; decide) (by decide) (by decide) (by decide) (by decide)

/-- C6: on a roster with unique ids whose recorded detection times are clock readings, one
run of the ticker does to each worker exactly this: `workerLost` at `now` if the worker is
visible and its last detection is more than 10000 ms older than `now`, nothing otherwise;
then `checkOvertime` for that worker if and only if `everSeen` is true.  The shared object
is the one these `checkOvertime` calls leave, taken in roster order, and
`totalDetectedToday` is untouched.  A visible worker last detected at most 10 s ago stays
visible with `sessionStart` and `accumulatedSeconds` unchanged. -/
theorem ticker_refines (now : Int) (s : State) (hU : UniqueIds s.workers)
    (hz : ∀ w ∈ s.workers, w.lastDetectedAt ≠ some 0) :
    (∀ (i : Nat) (w : Worker), s.workers[i]? = some w →
      ∃ v, (if staleBySpec now w then workerLost now w.id s else s).workers[i]? = some v ∧
        (∀ S : Shared, (ticker now s).workers[i]?
          = some (if v.everSeen then (checkOvertime now v S).1 else v)) ∧
        (w.isCurrentlyVisible = true → staleBySpec now w = false →
          ∃ u, (ticker now s).workers[i]? = some u ∧ u.isCurrentlyVisible = true ∧
            u.sessionStart = w.sessionStart ∧
            u.accumulatedSeconds = w.accumulatedSeconds)) ∧
    (ticker now s).S
      = (s.workers.map (fun w => if staleBySpec now w then lostUpdate now w else w)).foldl
          (fun S v => if v.everSeen then (checkOvertime now v S).2 else S) s.S ∧
    (ticker now s).totalDetectedToday = s.totalDetectedToday := by
  refine ⟨?_, ?_, ?_⟩
  · intro i w hw
    have hmem : w ∈ s.workers := List.getElem?_mem hw
    have hst := isStale_eq_spec now w (hz w hmem)
    obtain ⟨pre, suf, hws, hlen⟩ := getElem?_split hw
    have hpre : ∀ v ∈ pre, v.id ≠ w.id := uniqueIds_pre (hws ▸ hU)
    have hL : workerLost now w.id s
        = ⟨pre ++ (if w.isCurrentlyVisible then lostUpdate now w else w) :: suf,
            s.totalDetectedToday, s.S⟩ := by
      cases s with
      | mk ws total S =>
        simp only at hws
        subst hws
        exact workerLost_split now pre w suf total S hpre
    have htick : (ticker now s).workers[i]? = some (tickWorker now w) := by
      rw [getElem?_ticker now s hU, hw]; rfl
    by_cases hs : staleBySpec now w = true
    · have hv : w.isCurrentlyVisible = true := by
        unfold staleBySpec at hs; simp at hs; exact hs.1
      refine ⟨lostUpdate now w, ?_, ?_, ?_⟩
      · simp only [hs, if_true, hL, hv, ← hlen]
        exact getElem?_mid _ _ _
      · intro S
        rw [htick]
        simp only [tickWorker, tickRecord, hst, hs, if_true]
        congr 1
        split
        · exact checkOvertime_fst _ _ _ _
        · rfl
      · intro _ hns; rw [hs] at hns; cases hns
    · have hs2 : staleBySpec now w = false := by simpa using hs
      refine ⟨w, ?_, ?_, ?_⟩
      · simp [hs2, hw]
      · intro S
        rw [htick]
        simp only [tickWorker, tickRecord, hst, hs2, Bool.false_eq_true, if_false]
        congr 1
        split
        · exact checkOvertime_fst _ _ _ _
        · rfl
      · intro hv _
        obtain ⟨f1, f2, f3, _, _⟩ := tickWorker_fields now w
        simp only [hst, hs2, Bool.false_eq_true, if_false] at f1 f2 f3
        exact ⟨_, htick, f3.trans hv, f2, f1⟩
  · rw [ticker_eq now s hU, List.foldl_map]
    apply List.foldl_ext
    intro S w hw
    simp only [tickRecord, isStale_eq_spec now w (hz w hw)]
    split <;> split <;> rfl
  · rw [ticker_eq now s hU]

/-- C6, on the roster of the script, 11 s after the first detection of `W-001`. -/
theorem ticker_refines_witness :
    (ticker (T0 + 11000) seenState).S
      = (seenState.workers.map
          (fun w => if staleBySpec (T0 + 11000) w then lostUpdate (T0 + 11000) w else w)).foldl
          (fun S v => if v.everSeen then (checkOvertime (T0 + 11000) v S).2 else S)
          seenState.S ∧
    (ticker (T0 + 11000) seenState).totalDetectedToday = seenState.totalDetectedToday :=
  (ticker_refines (T0 + 11000) seenState (by unfold UniqueIds; decide) (by decide)).2

/-- C7: for an id that no registered worker carries, `workerDetected` and `workerLost` return
the state they were given: every record, the roster, `totalDetectedToday`, `S.violations`
and the rest of the shared object are unchanged. -/
theorem unknown_id_ignored (now : Int) (id : String) (s : State)
    (h : ∀ w ∈ s.workers, w.id ≠ id) :
    workerDetected now id s = s ∧ workerLost now id s = s := by
  have hn : findWorker id s.workers = none := findWorker_none.2 h
  constructor
  · unfold workerDetected; rw [hn]
  · unfold workerLost; rw [hn]

/-- C7, on the roster of the script with the id `UNKNOWN-ID`. -/
theorem unknown_id_ignored_witness :
    workerDetected T0 "UNKNOWN-ID" seenState = seenState ∧
    workerLost T0 "UNKNOWN-ID" seenState = seenState :=
  unknown_id_ignored T0 "UNKNOWN-ID" seenState (by decide)

/-- C8, refuted: `W-001` is detected at `T0` and the clock then reads 2 s less.  The record is
visible with `sessionStart = T0`, yet `getSecondsOnSite` returns -2, not the accumulated 0,
and `workerLost` lowers `accumulatedSeconds` from 0 to -2. -/
theorem clock_skew_counterexample :
    seenState.workers[0]? = some seenAarush ∧
    seenAarush.isCurrentlyVisible = true ∧ seenAarush.sessionStart = some T0 ∧
    T0 - 2000 < T0 ∧ seenAarush.accumulatedSeconds = 0 ∧
    getSecondsOnSite (T0 - 2000) seenAarush = -2 ∧
    (workerLost (T0 - 2000) "W-001" seenState).workers.map (fun w => w.accumulatedSeconds)
      = [-2, 0, 0, 0] := by
  decide

/-- C8, amended: a negative interval is not clamped.  For a registered worker that is
visible (seen, session start `t` recorded) and a clock reading `now < t`, `getSecondsOnSite`
returns `accumulatedSeconds + floor((now - t)/1000)`, which is less than `accumulatedSeconds`,
and `workerLost` stores exactly that smaller value in `accumulatedSeconds`. -/
theorem clock_skew_propagates (now : Int) (id : String) (s : State) (i : Nat) (w : Worker)
    (t : Int) (hf : findWorker id s.workers = some (i, w))
    (hv : w.isCurrentlyVisible = true) (hs : w.everSeen = true)
    (ht : w.sessionStart = some t) (h0 : t ≠ 0) (hlt : now < t) :
    getSecondsOnSite now w = w.accumulatedSeconds + ⌊((now - t : Int) : ℚ) / 1000⌋ ∧
    getSecondsOnSite now w < w.accumulatedSeconds ∧
    ∃ v, (workerLost now id s).workers[i]? = some v ∧
      v.accumulatedSeconds = getSecondsOnSite now w ∧
      v.accumulatedSeconds < w.accumulatedSeconds := by
  have hg : getSecondsOnSite now w = w.accumulatedSeconds + (now - t) / 1000 := by
    simp [getSecondsOnSite, hs, hv, ht, truthy, num, h0, msToSec]
  have hneg : (now - t) / 1000 < 0 := by omega
  obtain ⟨pre, suf, hws, hlen, hpre, hid, hL⟩ := workerLost_found now hf
  have hv2 : (lostUpdate now w).accumulatedSeconds = w.accumulatedSeconds + (now - t) / 1000 := by
    simp [lostUpdate, ht, truthy, num, h0, msToSec]
  refine ⟨?_, by omega, lostUpdate now w, ?_, by omega, by omega⟩
  · rw [hg, ← msToSec_eq_floor]; rfl
  · rw [hL, ← hlen]
    simpa [hv] using getElem?_mid pre (lostUpdate now w) suf

/-- C8 amended, at the record of the counterexample. -/
theorem clock_skew_propagates_witness :
    getSecondsOnSite (T0 - 2000) seenAarush
      = seenAarush.accumulatedSeconds + ⌊((T0 - 2000 - T0 : Int) : ℚ) / 1000⌋ ∧
    getSecondsOnSite (T0 - 2000) seenAarush < seenAarush.accumulatedSeconds ∧
    ∃ v, (workerLost (T0 - 2000) "W-001" seenState).workers[0]? = some v ∧
      v.accumulatedSeconds = getSecondsOnSite (T0 - 2000) seenAarush ∧
      v.accumulatedSeconds < seenAarush.accumulatedSeconds :=
  clock_skew_propagates (T0 - 2000) "W-001" seenState 0 seenAarush T0 (by decide) (by decide)
    (by decide) (by decide) (by decide) (by decide)

/-- C9: in every state reached from the initial roster by `workerDetected`, `workerLost`,
ticker steps, `simOvertime` and `resetWorkers`, in any order and at any clock readings
(increasing or not; a reading of `Date.now()` is never 0), every worker has `sessionStart`
set (not null) if and only if `isCurrentlyVisible` is true. -/
theorem sessionStart_iff_visible (evs : List Event) (hclock : ∀ e ∈ evs, e.stamp ≠ some 0) :
    ∀ w ∈ (run evs initialState).workers,
      (w.sessionStart ≠ none ↔ w.isCurrentlyVisible = true) := by
  intro w hw
  have hinit : ∀ v ∈ initialState.workers, SessionOk v := by
    unfold SessionOk; decide
  exact (run_sessionOk evs initialState initial_uniqueIds hclock hinit w hw).1

/-- C9, on a run that uses every handler, with the clock stepping back once. -/
theorem sessionStart_iff_visible_witness :
    (run [Event.detected T0 "W-001", Event.tick (T0 + 1000),
          Event.detected (T0 - 500) "W-002", Event.lost (T0 + 3000) "W-001",
          Event.simulate (T0 + 4000), Event.tick (T0 + 20000), Event.reset,
          Event.detected (T0 + 30000) "W-003"] initialState).workers.all
      (fun w => decide (w.sessionStart ≠ none ↔ w.isCurrentlyVisible = true)) = true :=
  List.all_eq_true.2 (fun w hw =>
    decide_eq_true (sessionStart_iff_visible _ (by decide) w hw))

/-- C10: on a roster with unique ids and a clock reading `now` at or past every recorded
session start, `accumulatedSeconds` of no worker decreases across `workerDetected`,
`workerLost` or a tick, and it changes only where a session ends: `workerDetected` leaves
every `accumulatedSeconds` as it was, `workerLost` leaves unchanged every record other than
a visible worker with the given id, and a tick leaves `accumulatedSeconds` unchanged for
every worker its staleness test does not select. -/
theorem accumulated_monotone (now : Int) (id : String) (s : State) (hU : UniqueIds s.workers)
    (hclock : ∀ w ∈ s.workers, ∀ t, w.sessionStart = some t → t ≤ now) :
    (workerDetected now id s).workers.map (fun w => w.accumulatedSeconds)
      = s.workers.map (fun w => w.accumulatedSeconds) ∧
    List.Forall₂ (fun a b => a.accumulatedSeconds ≤ b.accumulatedSeconds)
      s.workers (workerLost now id s).workers ∧
    (∀ (i : Nat) (w : Worker), s.workers[i]? = some w →
      (w.id ≠ id ∨ w.isCurrentlyVisible = false) →
      (workerLost now id s).workers[i]? = some w) ∧
    List.Forall₂ (fun a b => a.accumulatedSeconds ≤ b.accumulatedSeconds)
      s.workers (ticker now s).workers ∧
    (∀ (i : Nat) (w : Worker), s.workers[i]? = some w → isStale now w = false →
      ∃ v, (ticker now s).workers[i]? = some v ∧
        v.accumulatedSeconds = w.accumulatedSeconds) := by
  refine ⟨?_, ?_, ?_, ?_, ?_⟩
  · cases hf : findWorker id s.workers with
    | none => simp [workerDetected, hf]
    | some r =>
      obtain ⟨i, w⟩ := r
      obtain ⟨pre, suf, hws, _, _, _, hD⟩ := workerDetected_found now hf
      rw [hD, hws]
      simp [detectUpdate_accumulatedSeconds]
  · cases hf : findWorker id s.workers with
    | none =>
      simp only [workerLost, hf]
      exact List.forall₂_same.2 (fun a _ => le_refl _)
    | some r =>
      obtain ⟨i, w⟩ := r
      obtain ⟨pre, suf, hws, _, _, _, hL⟩ := workerLost_found now hf
      have hw : w ∈ s.workers := by rw [hws]; simp
      rw [hL]
      conv => lhs; rw [hws]
      refine forall₂_replace (R := fun a b => a.accumulatedSeconds ≤ b.accumulatedSeconds)
        (fun a => le_refl _) pre w _ suf ?_
      split
      · exact lostUpdate_accumulatedSeconds_le now w (hclock w hw)
      · exact le_refl _
  · intro i w hw hor
    cases hf : findWorker id s.workers with
    | none => simp [workerLost, hf, hw]
    | some r =>
      obtain ⟨j, u⟩ := r
      obtain ⟨pre, suf, hws, hlen, _, hid, hL⟩ := workerLost_found now hf
      by_cases hij : i = j
      · have hu : s.workers[j]? = some u := by
          rw [hws, ← hlen]; exact getElem?_mid _ _ _
        have huw : u = w := by
          rw [hij] at hw; rw [hw] at hu; exact (Option.some.inj hu).symm
        subst huw
        rcases hor with hne | hnv
        · exact absurd hid hne
        · rw [hL]; simp only [hnv, Bool.false_eq_true, if_false]; rw [← hws]; exact hw
      · rw [hL, ← set_mid pre u _ suf, ← hws, hlen, List.getElem?_set_ne (Ne.symm hij)]
        exact hw
  · rw [ticker_eq now s hU]
    simp only
    rw [List.forall₂_map_right_iff, List.forall₂_same]
    intro w hw
    rw [(tickWorker_fields now w).1]
    split
    · exact lostUpdate_accumulatedSeconds_le now w (hclock w hw)
    · exact le_refl _
  · intro i w hw hns
    refine ⟨tickWorker now w, ?_, ?_⟩
    · rw [getElem?_ticker now s hU, hw]; rfl
    · rw [(tickWorker_fields now w).1]; simp [hns]

/-- C10, on the roster of the script 3 s after the first detection of `W-001`. -/
theorem accumulated_monotone_witness :
    (workerDetected (T0 + 3000) "W-001" seenState).workers.map (fun w => w.accumulatedSeconds)
      = seenState.workers.map (fun w => w.accumulatedSeconds) ∧
    List.Forall₂ (fun a b => a.accumulatedSeconds ≤ b.accumulatedSeconds)
      seenState.workers (workerLost (T0 + 3000) "W-001" seenState).workers :=
  ⟨(accumulated_monotone (T0 + 3000) "W-001" seenState (by unfold UniqueIds; decide)
      (by decide)).1,
   (accumulated_monotone (T0 + 3000) "W-001" seenState (by unfold UniqueIds; decide)
      (by decide)).2.1⟩

/-- C11: with no event in between, the on-site time of a visible worker does not decrease as
the clock advances (`now1 <= now2`, in particular from the session start on), and the
on-site time of a worker that is not visible is the same at every time. -/
theorem getSecondsOnSite_monotone (w : Worker) (now1 now2 : Int) :
    (w.isCurrentlyVisible = true → now1 ≤ now2 →
      getSecondsOnSite now1 w ≤ getSecondsOnSite now2 w) ∧
    (w.isCurrentlyVisible = false → getSecondsOnSite now1 w = getSecondsOnSite now2 w) := by
  constructor
  · intro _ hle
    unfold getSecondsOnSite msToSec
    dsimp only
    split
    · exact le_refl _
    · split
      · have : (now1 - num w.sessionStart) / 1000 ≤ (now2 - num w.sessionStart) / 1000 := by
          omega
        omega
      · exact le_refl _
  · intro hv
    simp [getSecondsOnSite, hv]

/-- C11, on `W-001` first detected at `T0`: one second and five seconds into the session. -/
theorem getSecondsOnSite_monotone_witness :
    getSecondsOnSite (T0 + 1000) seenAarush ≤ getSecondsOnSite (T0 + 5000) seenAarush :=
  (getSecondsOnSite_monotone seenAarush (T0 + 1000) (T0 + 5000)).1 (by decide) (by decide)

/-- C12: for a registered worker, `workerLost` returns the state unchanged when the worker is
not visible, and a second call (at any time) after a first changes nothing more.  When the
worker is visible, with its session start `t` recorded, the call replaces the record by the
same record with `floor((now - t)/1000)` added to `accumulatedSeconds`, `sessionStart`
cleared and `isCurrentlyVisible` false: `everSeen`, `overtimeAlertFired`, `overtimeLimit`,
`lastDetectedAt`, every other worker and the rest of the state are as before. -/
theorem workerLost_effect (now : Int) (id : String) (s : State) (i : Nat) (w : Worker)
    (hf : findWorker id s.workers = some (i, w)) :
    (w.isCurrentlyVisible = false → workerLost now id s = s) ∧
    (∀ later : Int, workerLost later id (workerLost now id s) = workerLost now id s) ∧
    (w.isCurrentlyVisible = true → ∀ t : Int, w.sessionStart = some t → t ≠ 0 →
      workerLost now id s =
        ⟨s.workers.set i
            { w with accumulatedSeconds := w.accumulatedSeconds + ⌊((now - t : Int) : ℚ) / 1000⌋
                     sessionStart := none
                     isCurrentlyVisible := false },
          s.totalDetectedToday, s.S⟩) := by
  obtain ⟨pre, suf, hws, hlen, hpre, hid, hL⟩ := workerLost_found now hf
  refine ⟨?_, ?_, ?_⟩
  · intro hv
    simp [workerLost, hf, hv]
  · intro later
    obtain ⟨x, hx⟩ : ∃ x, x = (if w.isCurrentlyVisible then lostUpdate now w else w) := ⟨_, rfl⟩
    have hxid : x.id = w.id := by rw [hx]; split <;> simp
    have hxv : x.isCurrentlyVisible = false := by
      rw [hx]; split
      · exact (lostUpdate_fields now w).2.2.2.2
      · next h => simpa using h
    rw [hL, ← hx, ← hid, ← hxid]
    have := workerLost_split later pre x suf s.totalDetectedToday s.S
      (fun v hv => by rw [hxid, hid]; exact hpre v hv)
    rw [this]; simp [hxv]
  · intro hv t ht h0
    rw [hL, hws, ← hlen, set_mid]
    simp only [hv, if_true, lostUpdate_session now t w ht h0]
    have hfl : ⌊((now - t : Int) : ℚ) / 1000⌋ = (now - t) / 1000 := by
      rw [← msToSec_eq_floor]; rfl
    rw [hfl]

/-- C12, on the roster of the script: `W-001`, in frame since `T0`, is lost 3 s later. -/
theorem workerLost_effect_witness :
    workerLost (T0 + 3000) "W-001" seenState =
      ⟨seenState.workers.set 0
          { seenAarush with
              accumulatedSeconds :=
                seenAarush.accumulatedSeconds + ⌊((T0 + 3000 - T0 : Int) : ℚ) / 1000⌋
              sessionStart := none
              isCurrentlyVisible := false },
        seenState.totalDetectedToday, seenState.S⟩ :=
  (workerLost_effect (T0 + 3000) "W-001" seenState 0 seenAarush (by decide)).2.2
    (by decide) T0 (by decide) (by decide)

/-- C13: for a registered worker, `workerDetected` at `now` leaves a record with
`lastDetectedAt = now`, and by cases: on a first detection (`everSeen` false) the record has
`everSeen` set, `sessionStart = now` and is visible, and `totalDetectedToday` grows by exactly
1; for a worker seen before and not visible, `sessionStart = now`, the record is visible and
`accumulatedSeconds` is kept, so `getSecondsOnSite` right after the call equals its value
right before (the clock resumes); for a worker already visible, `sessionStart`,
`accumulatedSeconds`, `isCurrentlyVisible` and `totalDetectedToday` are unchanged. -/
theorem workerDetected_cases (now : Int) (id : String) (s : State) (i : Nat) (w : Worker)
    (hf : findWorker id s.workers = some (i, w)) :
    ∃ v, (workerDetected now id s).workers[i]? = some v ∧ v.lastDetectedAt = some now ∧
      (w.everSeen = false →
        v.everSeen = true ∧ v.sessionStart = some now ∧ v.isCurrentlyVisible = true ∧
        (workerDetected now id s).totalDetectedToday = s.totalDetectedToday + 1) ∧
      (w.everSeen = true → w.isCurrentlyVisible = false →
        v.sessionStart = some now ∧ v.isCurrentlyVisible = true ∧
        v.accumulatedSeconds = w.accumulatedSeconds ∧
        getSecondsOnSite now v = getSecondsOnSite now w ∧
        (workerDetected now id s).totalDetectedToday = s.totalDetectedToday) ∧
      (w.everSeen = true → w.isCurrentlyVisible = true →
        v.sessionStart = w.sessionStart ∧ v.accumulatedSeconds = w.accumulatedSeconds ∧
        v.isCurrentlyVisible = true ∧
        (workerDetected now id s).totalDetectedToday = s.totalDetectedToday) := by
  obtain ⟨pre, suf, hws, hlen, hpre, hid, hD⟩ := workerDetected_found now hf
  refine ⟨(checkOvertime now (detectUpdate now w) s.S).1, ?_, ?_, ?_, ?_, ?_⟩
  · rw [hD, ← hlen]; exact getElem?_mid _ _ _
  · rw [checkOvertime_lastDetectedAt]
    unfold detectUpdate; rfl
  · intro hs
    rw [hD]
    simp [detectUpdate_first now w hs, hs]
  · intro hs hv
    rw [hD]
    simp [detectUpdate_resume now w hs hv, hs, hv, getSecondsOnSite, msToSec, num]
  · intro hs hv
    rw [hD]
    simp [detectUpdate_visible now w hs hv, hs, hv]

/-- C13, on the roster of the script: the first detection of `W-002` after that of `W-001`. -/
theorem workerDetected_cases_witness :
    ∃ v, (workerDetected (T0 + 500) "W-002" seenState).workers[1]? = some v ∧
      v.lastDetectedAt = some (T0 + 500) ∧ v.everSeen = true ∧
      v.sessionStart = some (T0 + 500) ∧ v.isCurrentlyVisible = true ∧
      (workerDetected (T0 + 500) "W-002" seenState).totalDetectedToday
        = seenState.totalDetectedToday + 1 :=
  (workerDetected_cases (T0 + 500) "W-002" seenState 1
      (mkWorker "Aditya" "W-002" "🧑" "#26d0b2" (9 * 3600)) (by decide)).elim
    (fun v hv => ⟨v, hv.1, hv.2.1, (hv.2.2.1 (by decide)).1, (hv.2.2.1 (by decide)).2.1,
      (hv.2.2.1 (by decide)).2.2.1, (hv.2.2.1 (by decide)).2.2.2⟩)

/-- C14: from every state, `resetWorkers` leaves the roster with the same entries in the same
places, each with `accumulatedSeconds = 0`, `sessionStart = null`, `isCurrentlyVisible = false`,
`overtimeAlertFired = false`, `everSeen = false`, `lastDetectedAt = null` and with `id`, `name`
and `overtimeLimit` as before; `totalDetectedToday` is 0; `getSecondsOnSite` is then 0 for
every worker at every time; and a second `resetWorkers` changes nothing more. -/
theorem resetWorkers_effect (s : State) :
    (resetWorkers s).workers.length = s.workers.length ∧
    (∀ (i : Nat) (w : Worker), s.workers[i]? = some w →
      ∃ v, (resetWorkers s).workers[i]? = some v ∧
        v.accumulatedSeconds = 0 ∧ v.sessionStart = none ∧ v.isCurrentlyVisible = false ∧
        v.overtimeAlertFired = false ∧ v.everSeen = false ∧ v.lastDetectedAt = none ∧
        v.id = w.id ∧ v.name = w.name ∧ v.overtimeLimit = w.overtimeLimit) ∧
    (resetWorkers s).totalDetectedToday = 0 ∧
    (∀ v ∈ (resetWorkers s).workers, ∀ now : Int, getSecondsOnSite now v = 0) ∧
    resetWorkers (resetWorkers s) = resetWorkers s := by
  refine ⟨by simp [resetWorkers], ?_, rfl, ?_, ?_⟩
  · intro i w hw
    refine ⟨resetWorker w, by simp [resetWorkers, hw], ?_⟩
    simp [resetWorker]
  · intro v hv now
    simp only [resetWorkers, List.mem_map] at hv
    obtain ⟨w, _, rfl⟩ := hv
    simp [getSecondsOnSite, resetWorker]
  · simp [resetWorkers, Function.comp_def, resetWorker]

/-- C14, on the roster of the script after a detection, a tick and the overtime demo. -/
theorem resetWorkers_effect_witness :
    (resetWorkers (run [Event.detected T0 "W-001", Event.tick (T0 + 1000),
        Event.simulate (T0 + 2000)] initialState)).totalDetectedToday = 0 ∧
    resetWorkers (resetWorkers (run [Event.detected T0 "W-001", Event.tick (T0 + 1000),
        Event.simulate (T0 + 2000)] initialState))
      = resetWorkers (run [Event.detected T0 "W-001", Event.tick (T0 + 1000),
        Event.simulate (T0 + 2000)] initialState) :=
  ⟨(resetWorkers_effect _).2.2.1, (resetWorkers_effect _).2.2.2.2⟩

/-- C15: on a roster with unique ids, a second run of the ticker at the same clock reading
changes nothing: the worker records, `S.violations` (the number of overtime alerts raised),
the notifications, the log and `totalDetectedToday` are those the first run left. -/
theorem ticker_idempotent (now : Int) (s : State) (hU : UniqueIds s.workers) :
    ticker now (ticker now s) = ticker now s := by
  have hU2 : UniqueIds (ticker now s).workers := step_uniqueIds s (Event.tick now) hU
  rw [ticker_eq now (ticker now s) hU2, ticker_eq now s hU]
  simp only [List.map_map, tickFold_after_tick]
  congr 1
  apply List.map_congr_left
  intro w _
  exact tickWorker_tickWorker now w

/-- C15, on the roster of the overtime scenario: the tick 6 s after the detection raises the
alert of `W-001`, and a second tick at the same reading raises none. -/
theorem ticker_idempotent_witness :
    ticker (T0 + 6000) (ticker (T0 + 6000) (workerDetected T0 "W-001" ⟨demoRoster, 0, emptyShared⟩))
      = ticker (T0 + 6000) (workerDetected T0 "W-001" ⟨demoRoster, 0, emptyShared⟩) ∧
    (ticker (T0 + 6000) (workerDetected T0 "W-001" ⟨demoRoster, 0, emptyShared⟩)).S.violations
      = 1 :=
  ⟨ticker_idempotent (T0 + 6000) (workerDetected T0 "W-001" ⟨demoRoster, 0, emptyShared⟩)
      (by unfold UniqueIds; decide),
   by decide⟩

/-- C16, refuted: `W-001` is first detected at `T0`, lost 3 s later and detected again 10 s
after `T0`.  At 13 s after the first detection `getSecondsOnSite` is 6, the two stretches in
frame, and not the 13 whole seconds since the first detection. -/
theorem wall_clock_counterexample :
    ∃ w, (run [Event.detected T0 "W-001", Event.lost (T0 + 3000) "W-001",
          Event.detected (T0 + 10000) "W-001"] initialState).workers[0]? = some w ∧
      w.id = "W-001" ∧ getSecondsOnSite (T0 + 13000) w = 6 ∧
      wholeSeconds T0 (T0 + 13000) = 13 ∧
      getSecondsOnSite (T0 + 13000) w ≠ wholeSeconds T0 (T0 + 13000) := by
  refine ⟨_, rfl, by decide, by decide, ?_, ?_⟩
  · rw [wholeSeconds_eq]; decide
  · rw [wholeSeconds_eq]; decide

/-- C16, amended: the timer pauses while the worker is out of frame.  For a worker first
detected at `t` and any sequence of later `workerDetected` / `workerLost` calls,
`getSecondsOnSite` equals the whole seconds of the intervals during which the worker was in
frame, so the time between a loss and the next detection is not included; it equals
`floor((now - t)/1000)`, the whole seconds since the first detection, when the later calls
contain no `workerLost`. -/
theorem onSite_since_first_detection (s : State) (id : String) (i : Nat) (w0 : Worker)
    (t : Int) (sigs : List Signal) (now : Int)
    (hf : findWorker id s.workers = some (i, w0)) (hfresh : resetWorker w0 = w0)
    (ht : t ≠ 0) (hclock : ∀ g ∈ sigs, g.time ≠ 0) :
    ∃ w, findWorker id (run ((Signal.seen t :: sigs).map (Signal.toEvent id)) s).workers
          = some (i, w) ∧
      getSecondsOnSite now w = visibleSeconds (Signal.seen t :: sigs) now ∧
      ((∀ g ∈ sigs, g.isSeen = true) →
        getSecondsOnSite now w = ⌊((now - t : Int) : ℚ) / 1000⌋) := by
  have h1 : w0.sessionStart = none := (congrArg Worker.sessionStart hfresh).symm
  have h2 : w0.isCurrentlyVisible = false := (congrArg Worker.isCurrentlyVisible hfresh).symm
  have h3 : w0.accumulatedSeconds = 0 := (congrArg Worker.accumulatedSeconds hfresh).symm
  have htr : Tracks w0 { closed := [], openSince := none } := by
    unfold Tracks; simp [h1, h2, h3]
  have hall : ∀ g ∈ Signal.seen t :: sigs, g.time ≠ 0 := by
    intro g hg
    rcases List.mem_cons.1 hg with rfl | hg
    · exact ht
    · exact hclock g hg
  obtain ⟨u, hu, htu⟩ := run_tracks id i (Signal.seen t :: sigs) s w0 _ hf hall htr
  have hsec := tracks_getSecondsOnSite now u _ htu
  refine ⟨u, hu, hsec, ?_⟩
  intro hseen
  rw [hsec]
  simp only [List.foldl_cons, Intervals.observe]
  rw [observe_all_seen [] t sigs hseen]
  simp [Intervals.total, wholeSeconds]

/-- C16 amended, on the roster of the script: `W-001` first detected at `T0` and detected
again 2 s and 4 s later, asked 13 s after the first detection. -/
theorem onSite_since_first_detection_witness :
    ∃ w, findWorker "W-001"
        (run ((Signal.seen T0 :: [Signal.seen (T0 + 2000), Signal.seen (T0 + 4000)]).map
          (Signal.toEvent "W-001")) initialState).workers = some (0, w) ∧
      getSecondsOnSite (T0 + 13000) w
        = visibleSeconds (Signal.seen T0 :: [Signal.seen (T0 + 2000), Signal.seen (T0 + 4000)])
            (T0 + 13000) ∧
      getSecondsOnSite (T0 + 13000) w = ⌊((T0 + 13000 - T0 : Int) : ℚ) / 1000⌋ :=
  (onSite_since_first_detection initialState "W-001" 0
      (mkWorker "Aarush" "W-001" "👷" "#4f8ef7" (9 * 3600)) T0
      [Signal.seen (T0 + 2000), Signal.seen (T0 + 4000)] (T0 + 13000)
      (by decide) (by decide) (by decide) (by decide)).elim
    (fun w hw => ⟨w, hw.1, hw.2.1, hw.2.2 (by decide)⟩)

/-- C17, the defect: after one press of the overtime demo button on the roster of the
script, `renderWorkers` counts 1 worker in overtime (`W-001`, 9 h 30 min on site), while
`updateOvStats` and `updateNavBadges` count 0: they compare `w.totalSeconds`, a property no
roster record has, with the limit. -/
theorem overview_count_diverges :
    renderWorkers_otCount T0 simState = 1 ∧
    updateOvStats_ot simState = 0 ∧ updateNavBadges_ot simState = 0 ∧
    simState.S.violations = 1 := by
  decide

/-- C18: in every state reached from the initial roster by `workerDetected`, `workerLost`,
ticker steps and `resetWorkers`, `totalDetectedToday` equals the number of workers whose
`everSeen` is true; so it never exceeds the size of the roster. -/
theorem totalDetected_eq_seen (evs : List Event) (hev : ∀ e ∈ evs, e.isDemo = false) :
    (run evs initialState).totalDetectedToday
      = (run evs initialState).workers.countP (fun w => w.everSeen) ∧
    (run evs initialState).totalDetectedToday ≤ (run evs initialState).workers.length := by
  have h := run_count evs initialState initial_uniqueIds hev (by decide)
  exact ⟨h, h ▸ List.countP_le_length _⟩

/-- C18, on a run with two first detections, a repeated detection, a loss, a tick, a reset
and a detection after the reset. -/
theorem totalDetected_eq_seen_witness :
    (run [Event.detected T0 "W-001", Event.detected (T0 + 500) "W-002",
          Event.detected (T0 + 900) "W-001", Event.lost (T0 + 3000) "W-001",
          Event.tick (T0 + 20000), Event.reset,
          Event.detected (T0 + 30000) "W-003"] initialState).totalDetectedToday
      = (run [Event.detected T0 "W-001", Event.detected (T0 + 500) "W-002",
          Event.detected (T0 + 900) "W-001", Event.lost (T0 + 3000) "W-001",
          Event.tick (T0 + 20000), Event.reset,
          Event.detected (T0 + 30000) "W-003"] initialState).workers.countP
            (fun w => w.everSeen) :=
  (totalDetected_eq_seen _ (by decide)).1

end SupplyGuard
